import Mathlib

/-!
Shallow embedding of the color-grid analyzer (`ColorAnalyzer` in `app.py`).

The image is an immutable 2D array of RGB triples; pixel channels are
modelled as rationals (the source works with numpy float64 values).
Square roots (`np.sqrt`, `np.std`) are modelled with `Real.sqrt`, so the
definitions that take square roots live in `ℝ` and are `noncomputable`;
everything else is executable.
-/

structure RGB where
  r : ℚ
  g : ℚ
  b : ℚ
deriving DecidableEq, Repr

structure Image where
  h : ℕ
  w : ℕ
  pix : ℕ → ℕ → RGB

/-- A cell rectangle `(x, y, w, h)` in image pixel coordinates. -/
abbrev Rect := ℕ × ℕ × ℕ × ℕ

/-- A detected grid: `(rows, cols, cells)`. -/
abbrev Grid := ℕ × ℕ × List Rect

/-- Arithmetic mean of a list of rationals (`np.mean`); `0` on the empty list. -/
def qmean (l : List ℚ) : ℚ := l.sum / l.length

/-- Arithmetic mean of a list of reals (`np.mean`). -/
noncomputable def rmean (l : List ℝ) : ℝ := l.sum / l.length

/-- `np.median`: middle element of the sorted list, or the mean of the two
middle elements for even length. -/
def medianL {α : Type} [LinearOrderedField α] (l : List α) : α :=
  let s := l.insertionSort (· ≤ ·)
  if l.length % 2 = 1 then s.getD (l.length / 2) 0
  else (s.getD (l.length / 2 - 1) 0 + s.getD (l.length / 2) 0) / 2

/-- Per-channel mean color of a list of pixels
(`np.mean(region.reshape(-1, 3), axis=0)`). -/
def meanRGB (l : List RGB) : RGB :=
  ⟨qmean (l.map RGB.r), qmean (l.map RGB.g), qmean (l.map RGB.b)⟩

/-- Per-channel median color (`np.median(colors, axis=0)`). -/
def medianRGB (l : List RGB) : RGB :=
  ⟨medianL (l.map RGB.r), medianL (l.map RGB.g), medianL (l.map RGB.b)⟩

/-- Squared Euclidean RGB distance (`np.sum((a - b) ** 2)`). -/
def dist2 (a b : RGB) : ℚ :=
  (a.r - b.r) ^ 2 + (a.g - b.g) ^ 2 + (a.b - b.b) ^ 2

/-- Euclidean RGB distance (`np.sqrt(np.sum((a - b) ** 2))`). -/
noncomputable def distR (a b : RGB) : ℝ := Real.sqrt ((dist2 a b : ℚ) : ℝ)

/-! ## Grid detector, gap-based path (`_detect_grid_simple`) -/

/-- Grayscale value of a pixel (`np.mean(img_array, axis=2)`). -/
def grayAt (img : Image) (i j : ℕ) : ℚ :=
  ((img.pix i j).r + (img.pix i j).g + (img.pix i j).b) / 3

/-- Mean grayscale of the rectangle of rows `[r0, r1)` and columns `[c0, c1)`. -/
def patchMean (img : Image) (r0 r1 c0 c1 : ℕ) : ℚ :=
  qmean ((List.range' r0 (r1 - r0)).flatMap fun i =>
    (List.range' c0 (c1 - c0)).map fun j => grayAt img i j)

/-- Background gray estimate: median of the mean grayscales of the four
(clamped) 5x5 corner patches. -/
def bgGray (img : Image) : ℚ :=
  medianL [patchMean img 0 (min img.h 5) 0 (min img.w 5),
           patchMean img 0 (min img.h 5) (img.w - 5) img.w,
           patchMean img (img.h - 5) img.h 0 (min img.w 5),
           patchMean img (img.h - 5) img.h (img.w - 5) img.w]

/-- Binarization threshold (`bg_gray - 20`). -/
def fgThreshold (img : Image) : ℚ := bgGray img - 20

/-- A pixel is foreground when its grayscale is below the threshold. -/
def isFg (img : Image) (i j : ℕ) : Bool :=
  decide (grayAt img i j < fgThreshold img)

/-- `rows_with_fg[i]`: some pixel of row `i` is foreground. -/
def rowHasFg (img : Image) (i : ℕ) : Bool :=
  (List.range img.w).any fun j => isFg img i j

/-- `cols_with_fg[j]`: some pixel of column `j` is foreground. -/
def colHasFg (img : Image) (j : ℕ) : Bool :=
  (List.range img.h).any fun i => isFg img i j

def rowsFg (img : Image) : List Bool := (List.range img.h).map (rowHasFg img)

def colsFg (img : Image) : List Bool := (List.range img.w).map (colHasFg img)

/-- Index of the first `true` (`np.argmax` on a boolean array). -/
def firstTrue (l : List Bool) : ℕ := l.findIdx fun x => x

def rowStart (img : Image) : ℕ := firstTrue (rowsFg img)

def rowEnd (img : Image) : ℕ := img.h - firstTrue (rowsFg img).reverse

def colStart (img : Image) : ℕ := firstTrue (colsFg img)

def colEnd (img : Image) : ℕ := img.w - firstTrue (colsFg img).reverse

/-- Fraction of `true` entries (`np.mean` over a boolean array). -/
def boolMean (l : List Bool) : ℚ :=
  ((l.filter fun x => x).length : ℚ) / l.length

/-- Foreground density of row `i` inside the bounding box. -/
def rowDensity (img : Image) (i : ℕ) : ℚ :=
  boolMean ((List.range' (colStart img) (colEnd img - colStart img)).map fun j => isFg img i j)

/-- Foreground density of column `j` inside the bounding box. -/
def colDensity (img : Image) (j : ℕ) : ℚ :=
  boolMean ((List.range' (rowStart img) (rowEnd img - rowStart img)).map fun i => isFg img i j)

/-- `row_gaps`: rows of the bounding box with density below 0.3. -/
def rowGaps (img : Image) : List Bool :=
  (List.range' (rowStart img) (rowEnd img - rowStart img)).map fun i =>
    decide (rowDensity img i < 3 / 10)

/-- `col_gaps`: columns of the bounding box with density below 0.3. -/
def colGaps (img : Image) : List Bool :=
  (List.range' (colStart img) (colEnd img - colStart img)).map fun j =>
    decide (colDensity img j < 3 / 10)

/-- Loop body of `_find_gaps`: walks the gap flags keeping the current
in-gap state, the start of the current gap run and the accumulated splits. -/
def findGapsAux (start e : ℕ) : List Bool → ℕ → Bool → ℕ → List ℕ → List ℕ
  | [], _, _, _, splits => splits
  | g :: rest, i, inGap, gapStart, splits =>
    if g && !inGap then
      findGapsAux start e rest (i + 1) true i splits
    else if !g && inGap then
      let gapMid := start + (gapStart + i) / 2
      if ((e : ℚ) - start) * (5 / 100) < (gapMid : ℚ) - (splits.getLastD 0 : ℕ) then
        findGapsAux start e rest (i + 1) false gapStart (splits ++ [gapMid])
      else
        findGapsAux start e rest (i + 1) false gapStart splits
    else
      findGapsAux start e rest (i + 1) inGap gapStart splits

/-- `_find_gaps(gaps, start, end)`: split coordinates, always including the
bounding-box start and end. -/
def findGaps (gaps : List Bool) (start e : ℕ) : List ℕ :=
  findGapsAux start e gaps 0 false 0 [start] ++ [e]

/-- Cells generated from the accepted horizontal and vertical splits
(row-major cross product of consecutive split pairs). -/
def gapCells (hS vS : List ℕ) : List Rect :=
  (List.range (hS.length - 1)).flatMap fun i =>
    (List.range (vS.length - 1)).map fun j =>
      (vS.getD j 0, hS.getD i 0,
       vS.getD (j + 1) 0 - vS.getD j 0,
       hS.getD (i + 1) 0 - hS.getD i 0)

/-- The gap-based detection path of `_detect_grid_simple`: `none` exactly
where the source diverts to `_fallback_grid`. -/
def gapGrid (img : Image) : Option Grid :=
  if (rowsFg img).any (fun x => x) = false ∨ (colsFg img).any (fun x => x) = false then
    none
  else
    let hS := findGaps (rowGaps img) (rowStart img) (rowEnd img)
    let vS := findGaps (colGaps img) (colStart img) (colEnd img)
    if hS.length < 2 ∨ vS.length < 2 then none
    else some (hS.length - 1, vS.length - 1, gapCells hS vS)

/-! ## Grid detector, brute-force fallback (`_fallback_grid`, `_score_grid`) -/

/-- Equal-partition cells for a `(rows, cols)` fallback candidate. -/
def fallbackCells (w h rows cols : ℕ) : List Rect :=
  (List.range rows).flatMap fun i =>
    (List.range cols).map fun j => (j * (w / cols), i * (h / rows), w / cols, h / rows)

/-- The central sub-region of a cell used by `_score_grid` (15% margins). -/
def scoreRegion (img : Image) (rect : Rect) : List RGB :=
  let x := rect.1
  let y := rect.2.1
  let w := rect.2.2.1
  let h := rect.2.2.2
  let mx := 3 * w / 20
  let my := 3 * h / 20
  let y1 := y + my
  let y2 := min img.h (y + h - my)
  let x1 := x + mx
  let x2 := min img.w (x + w - mx)
  (List.range' y1 (y2 - y1)).flatMap fun i =>
    (List.range' x1 (x2 - x1)).map fun j => img.pix i j

/-- `np.mean(avg_color)`: mean brightness of an averaged color. -/
def brightness (c : RGB) : ℚ := (c.r + c.g + c.b) / 3

/-- Population standard deviation of one channel (`np.std`). -/
noncomputable def chStd (l : List ℚ) : ℝ :=
  Real.sqrt ((qmean (l.map fun x => (x - qmean l) ^ 2) : ℚ) : ℝ)

/-- `np.mean(np.std(colors, axis=0))`. -/
noncomputable def avgStd (colors : List RGB) : ℝ :=
  (chStd (colors.map RGB.r) + chStd (colors.map RGB.g) + chStd (colors.map RGB.b)) / 3

/-- `_score_grid(img_array, cells, rows, cols)`. -/
noncomputable def scoreGrid (img : Image) (cells : List Rect) (rows cols : ℕ) : ℚ :=
  if cells.any fun rect => (scoreRegion img rect).isEmpty then 0
  else
    let colors := cells.map fun rect => meanRGB (scoreRegion img rect)
    if colors.any fun c => decide (200 < brightness c) then 0
    else if colors.length ≠ rows * cols then 0
    else
      let distances := colors.map fun c => distR c (medianRGB colors)
      let similarity : ℚ := ((distances.filter fun d => decide (d < 80)).length : ℚ) / colors.length
      if similarity < 7 / 10 then 0
      else if avgStd colors < 5 then similarity * (6 / 10)
      else similarity

/-- The `(rows, cols)` candidates of `_fallback_grid`, in iteration order. -/
def candPairs : List (ℕ × ℕ) :=
  (List.range' 2 6).flatMap fun r => (List.range' 2 6).map fun c => (r, c)

/-- One step of the `_fallback_grid` search: skip guarded candidates and
keep the best-scoring grid seen so far (strict improvement only). -/
noncomputable def fallbackStep (img : Image) (st : Option Grid × ℚ) (rc : ℕ × ℕ) :
    Option Grid × ℚ :=
  if 50 < rc.1 * rc.2 then st
  else if img.h / rc.1 < 20 ∨ img.w / rc.2 < 20 then st
  else
    let cells := fallbackCells img.w img.h rc.1 rc.2
    let score := scoreGrid img cells rc.1 rc.2
    if st.2 < score then (some (rc.1, rc.2, cells), score) else st

/-- `_fallback_grid(img_array)`. -/
noncomputable def fallbackGrid (img : Image) : Option Grid :=
  (candPairs.foldl (fallbackStep img) (none, 0)).1

/-- `_detect_grid_simple(img_array)`: gap-based detection with fallback. -/
noncomputable def detectGridSimple (img : Image) : Option Grid :=
  match gapGrid img with
  | some g => some g
  | none => fallbackGrid img

/-! ## Color sampler (the loop body in `analyze`) -/

/-- Left column bound of the sample window:
`max(0, cx - sample_w // 2)` with `cx = x + w // 2`,
`sample_w = max(5, w - 2 * int(w * 0.2))`. -/
def sampleXlo (x w : ℕ) : ℕ := (x + w / 2) - max 5 (w - 2 * (w / 5)) / 2

/-- Right column bound of the sample window: `min(img_width, cx + sample_w // 2)`. -/
def sampleXhi (img : Image) (x w : ℕ) : ℕ :=
  min img.w ((x + w / 2) + max 5 (w - 2 * (w / 5)) / 2)

/-- Top row bound of the sample window. -/
def sampleYlo (y h : ℕ) : ℕ := (y + h / 2) - max 5 (h - 2 * (h / 5)) / 2

/-- Bottom row bound of the sample window. -/
def sampleYhi (img : Image) (y h : ℕ) : ℕ :=
  min img.h ((y + h / 2) + max 5 (h - 2 * (h / 5)) / 2)

/-- The column indices of the clamped sample window. -/
def sampleCols (img : Image) (x w : ℕ) : List ℕ :=
  List.range' (sampleXlo x w) (sampleXhi img x w - sampleXlo x w)

/-- The row indices of the clamped sample window. -/
def sampleRows (img : Image) (y h : ℕ) : List ℕ :=
  List.range' (sampleYlo y h) (sampleYhi img y h - sampleYlo y h)

/-- The pixels of the clamped sample window of a cell. -/
def samplePixels (img : Image) (rect : Rect) : List RGB :=
  (sampleRows img rect.2.1 rect.2.2.2).flatMap fun i =>
    (sampleCols img rect.1 rect.2.2.1).map fun j => img.pix i j

/-- One sampled cell color: mean of the window, or neutral gray `(128,128,128)`
when the window is empty. -/
def sampleCell (img : Image) (rect : Rect) : RGB :=
  if (samplePixels img rect).isEmpty then ⟨128, 128, 128⟩
  else meanRGB (samplePixels img rect)

/-- `cell_colors`: one sampled color per cell, in cell order. -/
def cellColors (img : Image) (cells : List Rect) : List RGB :=
  cells.map (sampleCell img)

/-! ## Outlier classifier (`_find_different`) -/

/-- `min_threshold = 10 / sensitivity`. -/
def minThreshold (s : ℚ) : ℚ := 10 / s

/-- `avg_distances[i]`: mean Euclidean distance from color `i` to every
other color. -/
noncomputable def avgDistances (colors : List RGB) : List ℝ :=
  (List.range colors.length).map fun i =>
    rmean (((List.range colors.length).filter fun j => decide (i ≠ j)).map fun j =>
      distR (colors.getD i ⟨0, 0, 0⟩) (colors.getD j ⟨0, 0, 0⟩))

/-- `.max()` of a numpy array, modelled for nonempty lists. -/
noncomputable def listMaxD : List ℝ → ℝ
  | [] => 0
  | x :: xs => xs.foldl max x

/-- Mean of the `avg_distances` array. -/
noncomputable def meanAvgDist (colors : List RGB) : ℝ := rmean (avgDistances colors)

/-- `np.std(avg_distances)`. -/
noncomputable def stdAvgDist (colors : List RGB) : ℝ :=
  Real.sqrt (rmean ((avgDistances colors).map fun d => (d - meanAvgDist colors) ^ 2))

/-- Strategy 2 output: indices whose z-score exceeds 1.5. -/
noncomputable def zOutliers (colors : List RGB) : List ℕ :=
  (List.range colors.length).filter fun i =>
    decide ((3 / 2 : ℝ) < ((avgDistances colors).getD i 0 - meanAvgDist colors) / stdAvgDist colors)

/-- `distances_to_median[i]`: Euclidean distance from color `i` to the
per-channel median color. -/
noncomputable def distToMedian (colors : List RGB) : List ℝ :=
  colors.map fun c => distR c (medianRGB colors)

/-- `np.median(distances_to_median)`. -/
noncomputable def medDistM (colors : List RGB) : ℝ := medianL (distToMedian colors)

/-- `mad`: median absolute deviation of the distances to the median color. -/
noncomputable def madDev (colors : List RGB) : ℝ :=
  medianL ((distToMedian colors).map fun d => |d - medDistM colors|)

/-- Strategy 3 output: indices whose modified z-score exceeds 2.5. -/
noncomputable def madOutliers (colors : List RGB) : List ℕ :=
  (List.range colors.length).filter fun i =>
    decide ((5 / 2 : ℝ) <
      (6745 / 10000) * ((distToMedian colors).getD i 0 - medDistM colors) / madDev colors)

/-- The ordered list of index pairs `(i, j)` with `i < j < n`. -/
def allPairs (n : ℕ) : List (ℕ × ℕ) :=
  (List.range n).flatMap fun i => (List.range' (i + 1) (n - (i + 1))).map fun j => (i, j)

/-- The strategy-4 scan for the farthest color pair: `(max_pair_dist,
center1_idx, center2_idx)`, first maximal pair kept. -/
noncomputable def maxPairState (colors : List RGB) : ℝ × ℕ × ℕ :=
  (allPairs colors.length).foldl
    (fun st p =>
      if st.1 < distR (colors.getD p.1 ⟨0, 0, 0⟩) (colors.getD p.2 ⟨0, 0, 0⟩) then
        (distR (colors.getD p.1 ⟨0, 0, 0⟩) (colors.getD p.2 ⟨0, 0, 0⟩), p.1, p.2)
      else st)
    (0, 0, 1)

/-- `np.allclose` on scalars (`atol = 1e-8`, `rtol = 1e-5`). -/
def allclose1 (a b : ℚ) : Bool :=
  decide (|a - b| ≤ 1 / 100000000 + (1 / 100000) * |b|)

/-- `np.allclose` on colors. -/
def allcloseRGB (a b : RGB) : Bool :=
  allclose1 a.r b.r && allclose1 a.g b.g && allclose1 a.b b.b

/-- Nearest-center assignment: `cluster1` holds the indices whose distance to
`c1` is at most their distance to `c2`, `cluster2` the rest. -/
noncomputable def clustersOf (colors : List RGB) (c1 c2 : RGB) : List ℕ × List ℕ :=
  ((List.range colors.length).filter fun i =>
      decide (distR (colors.getD i ⟨0, 0, 0⟩) c1 ≤ distR (colors.getD i ⟨0, 0, 0⟩) c2),
   (List.range colors.length).filter fun i =>
      decide (distR (colors.getD i ⟨0, 0, 0⟩) c2 < distR (colors.getD i ⟨0, 0, 0⟩) c1))

/-- The 2-means refinement loop (`for _ in range(10)`), returning the final
cluster pair; `fuel` counts the iterations still allowed after the current one. -/
noncomputable def kmeansLoop (colors : List RGB) : ℕ → RGB → RGB → List ℕ × List ℕ
  | fuel, c1, c2 =>
    if (clustersOf colors c1 c2).1.isEmpty || (clustersOf colors c1 c2).2.isEmpty then
      clustersOf colors c1 c2
    else if allcloseRGB c1 (meanRGB ((clustersOf colors c1 c2).1.map fun i =>
          colors.getD i ⟨0, 0, 0⟩)) &&
        allcloseRGB c2 (meanRGB ((clustersOf colors c1 c2).2.map fun i =>
          colors.getD i ⟨0, 0, 0⟩)) then
      clustersOf colors c1 c2
    else
      match fuel with
      | 0 => clustersOf colors c1 c2
      | f + 1 =>
        kmeansLoop colors f
          (meanRGB ((clustersOf colors c1 c2).1.map fun i => colors.getD i ⟨0, 0, 0⟩))
          (meanRGB ((clustersOf colors c1 c2).2.map fun i => colors.getD i ⟨0, 0, 0⟩))

/-- The final clusters of strategy 4, starting from the farthest pair. -/
noncomputable def kmeansClusters (colors : List RGB) : List ℕ × List ℕ :=
  kmeansLoop colors 9
    (colors.getD (maxPairState colors).2.1 ⟨0, 0, 0⟩)
    (colors.getD (maxPairState colors).2.2 ⟨0, 0, 0⟩)

/-- `np.argmax`: index of the first maximal element. -/
noncomputable def argmaxIdx (l : List ℝ) : ℕ :=
  (l.enum.foldl (fun st p => if st.2 < p.2 then p else st) (0, l.headD 0)).1

/-- Strategy 5: the single index farthest from the median color, if that
distance exceeds the threshold. -/
noncomputable def lastResort (colors : List RGB) (s : ℚ) : List ℕ :=
  if ((minThreshold s : ℚ) : ℝ) < (distToMedian colors).getD (argmaxIdx (distToMedian colors)) 0
  then [argmaxIdx (distToMedian colors)]
  else []

/-- `_find_different(cell_colors, sensitivity)`: the cascaded classifier. -/
noncomputable def findDifferent (colors : List RGB) (s : ℚ) : List ℕ :=
  if colors.length < 2 then []
  else if listMaxD (avgDistances colors) < ((minThreshold s : ℚ) : ℝ) then []
  else if (1 / 10 : ℝ) < stdAvgDist colors ∧ zOutliers colors ≠ [] then zOutliers colors
  else if (1 / 10 : ℝ) < madDev colors ∧ madOutliers colors ≠ [] then madOutliers colors
  else if (maxPairState colors).1 < ((minThreshold s : ℚ) : ℝ) then []
  else if (kmeansClusters colors).1 ≠ [] ∧ (kmeansClusters colors).2 ≠ [] ∧
      (kmeansClusters colors).1.length < (kmeansClusters colors).2.length then
    (kmeansClusters colors).1
  else if (kmeansClusters colors).1 ≠ [] ∧ (kmeansClusters colors).2 ≠ [] ∧
      (kmeansClusters colors).2.length < (kmeansClusters colors).1.length then
    (kmeansClusters colors).2
  else lastResort colors s

/-! ## The `analyze` entry point -/

/-- Python `int()` truncation toward zero. -/
def truncQ (q : ℚ) : ℤ := if q < 0 then ⌈q⌉ else ⌊q⌋

/-- One reported cell: 1-based row and column plus the formatted color. -/
structure CellEntry where
  row : ℕ
  col : ℕ
  color : ℤ × ℤ × ℤ
deriving DecidableEq, Repr

/-- Build the report entry of cell index `idx`. -/
def entryOf (cols : ℕ) (idx : ℕ) (c : RGB) : CellEntry :=
  ⟨idx / cols + 1, idx % cols + 1, (truncQ c.r, truncQ c.g, truncQ c.b)⟩

/-- The debug list: one entry per cell, in cell order. -/
def debugEntries (cols : ℕ) (colors : List RGB) : List CellEntry :=
  (List.range colors.length).map fun idx => entryOf cols idx (colors.getD idx ⟨0, 0, 0⟩)

/-- The successful result of `ColorAnalyzer.analyze`. -/
structure AnalysisResult where
  rows : ℕ
  cols : ℕ
  results : List CellEntry
  debugColors : Option (List CellEntry)
deriving DecidableEq, Repr

/-- `ColorAnalyzer.analyze(pixmap, sensitivity, debug)`: `none` is the
"no valid color grid" error. -/
noncomputable def analyze (img : Image) (s : ℚ) (debug : Bool) : Option AnalysisResult :=
  match detectGridSimple img with
  | none => none
  | some (rows, cols, cells) =>
    let colors := cellColors img cells
    some ⟨rows, cols,
      (findDifferent colors s).map fun idx => entryOf cols idx (colors.getD idx ⟨0, 0, 0⟩),
      if debug then some (debugEntries cols colors) else none⟩

/-! ## Spec-side definitions and concrete instances -/

/-- The guards of `_fallback_grid` as a predicate: `rows*cols ≤ 50` and
both cell dimensions at least 20 pixels. -/
def candOk (img : Image) (rc : ℕ × ℕ) : Bool :=
  decide (rc.1 * rc.2 ≤ 50) && decide (20 ≤ img.h / rc.1) && decide (20 ≤ img.w / rc.2)

/-- The fallback candidates that survive the guards: `rows, cols ∈ [2,7]`,
`rows*cols ≤ 50`, both cell dimensions at least 20 pixels. -/
def specCands (img : Image) : List (ℕ × ℕ) :=
  candPairs.filter (candOk img)

/-- The score of one fallback candidate. -/
noncomputable def candScore (img : Image) (rc : ℕ × ℕ) : ℚ :=
  scoreGrid img (fallbackCells img.w img.h rc.1 rc.2) rc.1 rc.2

/-- Running maximum of `f` over a list, seeded with `init`. -/
def maxScan {α : Type} (f : α → ℚ) (init : ℚ) (l : List α) : ℚ :=
  l.foldl (fun a x => max a (f x)) init

/-- The unguarded selection step of `_fallback_grid`. -/
noncomputable def pickStep (img : Image) (st : Option Grid × ℚ) (rc : ℕ × ℕ) :
    Option Grid × ℚ :=
  if st.2 < candScore img rc
  then (some (rc.1, rc.2, fallbackCells img.w img.h rc.1 rc.2), candScore img rc)
  else st

/-- The highest candidate score (at least 0). -/
noncomputable def bestCandScore (img : Image) : ℚ :=
  maxScan (candScore img) 0 (specCands img)

/-- All in-bounds pixels of the image equal `c`. -/
def Uniform (img : Image) (c : RGB) : Prop :=
  ∀ i j, i < img.h → j < img.w → img.pix i j = c

/-- Modelled from the spec of the brute-force fallback: pick the candidate
with the highest score, ties broken in favor of the first candidate in
ascending `(rows, cols)` iteration order; fail if no candidate scores
strictly above 0. -/
noncomputable def fallbackSpec (img : Image) : Option Grid :=
  if 0 < bestCandScore img then
    ((specCands img).find? fun rc => decide (candScore img rc = bestCandScore img)).map
      fun rc => (rc.1, rc.2, fallbackCells img.w img.h rc.1 rc.2)
  else none

/-- The sample window described by interval membership over all image
coordinates: rows `sampleYlo ≤ i < sampleYhi`, columns
`sampleXlo ≤ j < sampleXhi`, margins `⌊0.2w⌋`/`⌊0.2h⌋` and halved nominal
window sizes as in `sampleXlo`/`sampleXhi`. -/
def sampleSpecPixels (img : Image) (rect : Rect) : List RGB :=
  ((List.range img.h).filter fun i =>
      decide (sampleYlo rect.2.1 rect.2.2.2 ≤ i) && decide (i < sampleYhi img rect.2.1 rect.2.2.2)).flatMap
    fun i =>
      ((List.range img.w).filter fun j =>
          decide (sampleXlo rect.1 rect.2.2.1 ≤ j) && decide (j < sampleXhi img rect.1 rect.2.2.1)).map
        fun j => img.pix i j

/-- The sampler as the amended spec words it: average the window pixels,
neutral gray `(128,128,128)` when the window is empty. -/
def sampleSpecCell (img : Image) (rect : Rect) : RGB :=
  if (sampleSpecPixels img rect).isEmpty then ⟨128, 128, 128⟩
  else meanRGB (sampleSpecPixels img rect)

/-- Strict row-major order on report entries. -/
def entryLt (a b : CellEntry) : Prop :=
  a.row < b.row ∨ (a.row = b.row ∧ a.col < b.col)

/-- A 2x2 image with three white pixels and one black pixel at `(1,1)`. -/
def img2 : Image :=
  ⟨2, 2, fun i j => if i = 1 && j = 1 then ⟨0, 0, 0⟩ else ⟨255, 255, 255⟩⟩

/-- A 40x40 uniform black image. -/
def img40 : Image := ⟨40, 40, fun _ _ => ⟨0, 0, 0⟩⟩

/-- A 1x1 uniform white image. -/
def img1 : Image := ⟨1, 1, fun _ _ => ⟨255, 255, 255⟩⟩

/-- Two colors at Euclidean distance 3. -/
def colors4 : List RGB := [⟨0, 0, 0⟩, ⟨0, 0, 3⟩]

/-- Two colors at Euclidean distance 30. -/
def colors5 : List RGB := [⟨0, 0, 0⟩, ⟨0, 0, 30⟩]

/-! ## General list lemmas -/

theorem foldl_invariant {α β : Type} (P : β → Prop) (f : β → α → β) :
    ∀ (l : List α) (init : β), P init → (∀ st x, x ∈ l → P st → P (f st x)) →
      P (l.foldl f init)
  | [], _, h, _ => h
  | x :: t, init, h, hstep =>
    foldl_invariant P f t (f init x) (hstep init x (List.mem_cons_self x t) h)
      fun st y hy hst => hstep st y (List.mem_cons_of_mem x hy) hst

theorem qmean_const {l : List ℚ} {q : ℚ} (hall : ∀ x ∈ l, x = q) (hne : l ≠ []) :
    qmean l = q := by
  have hrep := List.eq_replicate_of_mem hall
  have hlen : (l.length : ℚ) ≠ 0 := by
    simpa using fun h => hne (List.length_eq_zero.mp h)
  rw [qmean, hrep, List.sum_replicate, List.length_replicate, nsmul_eq_mul]
  field_simp

theorem medianL_const {α : Type} [LinearOrderedField α] {l : List α} {q : α}
    (hall : ∀ x ∈ l, x = q) (hne : l ≠ []) : medianL l = q := by
  have hperm := List.perm_insertionSort (α := α) (· ≤ ·) l
  have hlen : (l.insertionSort (· ≤ ·)).length = l.length := hperm.length_eq
  have hpos : 0 < l.length := List.length_pos.mpr hne
  have hs : ∀ x ∈ l.insertionSort (· ≤ ·), x = q := fun x hx => hall x (hperm.mem_iff.mp hx)
  have hk : l.length / 2 < (l.insertionSort (· ≤ ·)).length := by
    rw [hlen]; exact Nat.div_lt_self hpos one_lt_two
  have hk1 : l.length / 2 - 1 < (l.insertionSort (· ≤ ·)).length :=
    lt_of_le_of_lt (Nat.sub_le _ _) hk
  unfold medianL
  by_cases hodd : l.length % 2 = 1
  · rw [if_pos hodd, List.getD_eq_getElem _ _ hk]
    exact hs _ (List.getElem_mem _)
  · rw [if_neg hodd, List.getD_eq_getElem _ _ hk, List.getD_eq_getElem _ _ hk1,
      hs _ (List.getElem_mem _), hs _ (List.getElem_mem _)]
    ring

theorem card_mul_lt_sum (c : ℝ) :
    ∀ l : List ℝ, (∀ x ∈ l, c < x) → l = [] ∨ (l.length : ℝ) * c < l.sum
  | [], _ => Or.inl rfl
  | x :: t, hall => Or.inr (by
      rcases card_mul_lt_sum c t (fun z hz => hall z (List.mem_cons_of_mem x hz)) with h | h
      · rw [h]
        simpa using hall x (List.mem_cons_self x t)
      · have hx := hall x (List.mem_cons_self x t)
        simp only [List.length_cons, List.sum_cons]
        push_cast
        nlinarith)

theorem exists_le_rmean {l : List ℝ} (hne : l ≠ []) : ∃ x ∈ l, x ≤ rmean l := by
  by_contra hcon
  push_neg at hcon
  rcases card_mul_lt_sum (rmean l) l hcon with h | h
  · exact hne h
  · have hlen : (l.length : ℝ) ≠ 0 := by
      simpa using fun hz => hne (List.length_eq_zero.mp hz)
    rw [rmean, mul_div_cancel₀ _ hlen] at h
    exact lt_irrefl _ h

theorem exists_le_medianL {α : Type} [LinearOrderedField α] {l : List α} (hne : l ≠ []) :
    ∃ x ∈ l, x ≤ medianL l := by
  have hperm := List.perm_insertionSort (α := α) (· ≤ ·) l
  have hlen : (l.insertionSort (· ≤ ·)).length = l.length := hperm.length_eq
  have hpos : 0 < l.length := List.length_pos.mpr hne
  have hsort : List.Sorted (· ≤ ·) (l.insertionSort (· ≤ ·)) :=
    List.sorted_insertionSort _ l
  have hk : l.length / 2 < (l.insertionSort (· ≤ ·)).length := by
    rw [hlen]; exact Nat.div_lt_self hpos one_lt_two
  have hk1 : l.length / 2 - 1 < (l.insertionSort (· ≤ ·)).length :=
    lt_of_le_of_lt (Nat.sub_le _ _) hk
  unfold medianL
  by_cases hodd : l.length % 2 = 1
  · rw [if_pos hodd, List.getD_eq_getElem _ _ hk]
    exact ⟨_, hperm.mem_iff.mp (List.getElem_mem _), le_refl _⟩
  · rw [if_neg hodd, List.getD_eq_getElem _ _ hk, List.getD_eq_getElem _ _ hk1]
    have h2 : 2 ≤ l.length := by omega
    have hkpos : 1 ≤ l.length / 2 := by omega
    have hab : (l.insertionSort (· ≤ ·))[l.length / 2 - 1] ≤
        (l.insertionSort (· ≤ ·))[l.length / 2] := by
      have := hsort.rel_get_of_lt (a := ⟨l.length / 2 - 1, hk1⟩) (b := ⟨l.length / 2, hk⟩)
        (by simp [Fin.lt_def]; omega)
      simpa using this
    refine ⟨_, hperm.mem_iff.mp (List.getElem_mem hk1), ?_⟩
    linarith

theorem length_cross {β : Type} (r c : ℕ) (f : ℕ → ℕ → β) :
    ((List.range r).flatMap fun i => (List.range c).map (f i)).length = r * c := by
  rw [List.length_flatMap]
  have hrep : List.map (List.length ∘ fun i => (List.range c).map (f i)) (List.range r) =
      List.replicate r c := by
    rw [List.eq_replicate_iff]
    constructor
    · simp
    · intro b hb
      simp only [List.mem_map, Function.comp] at hb
      obtain ⟨i, -, hi⟩ := hb
      simpa using hi.symm
  rw [hrep, List.sum_replicate, smul_eq_mul]

/-! ## `_find_gaps` and the gap-based detector -/

theorem findGapsAux_prefix (start e : ℕ) :
    ∀ (l : List Bool) (i : ℕ) (g : Bool) (gs : ℕ) (splits : List ℕ),
      ∃ t, findGapsAux start e l i g gs splits = splits ++ t
  | [], _, _, _, splits => ⟨[], by simp [findGapsAux]⟩
  | b :: rest, i, g, gs, splits => by
    simp only [findGapsAux]
    split_ifs with h1 h2 h3
    · exact findGapsAux_prefix start e rest (i + 1) true i splits
    · obtain ⟨t, ht⟩ := findGapsAux_prefix start e rest (i + 1) false gs
        (splits ++ [start + (gs + i) / 2])
      exact ⟨[start + (gs + i) / 2] ++ t, by rw [ht, List.append_assoc]⟩
    · exact findGapsAux_prefix start e rest (i + 1) false gs splits
    · exact findGapsAux_prefix start e rest (i + 1) g gs splits

theorem findGaps_length (gaps : List Bool) (s e : ℕ) : 2 ≤ (findGaps gaps s e).length := by
  obtain ⟨t, ht⟩ := findGapsAux_prefix s e gaps 0 false 0 [s]
  rw [findGaps, ht]
  simp

theorem gapGrid_some {img : Image} {r c : ℕ} {cells : List Rect}
    (h : gapGrid img = some (r, c, cells)) :
    r = (findGaps (rowGaps img) (rowStart img) (rowEnd img)).length - 1 ∧
    c = (findGaps (colGaps img) (colStart img) (colEnd img)).length - 1 ∧
    cells = gapCells (findGaps (rowGaps img) (rowStart img) (rowEnd img))
      (findGaps (colGaps img) (colStart img) (colEnd img)) := by
  simp only [gapGrid] at h
  split_ifs at h <;>
    first
      | exact absurd h (by exact Option.noConfusion)
      | (rw [Option.some_inj] at h
         injection h with h1 h23
         injection h23 with h2 h3
         exact ⟨h1.symm, h2.symm, h3.symm⟩)

theorem gapGrid_none_iff (img : Image) :
    gapGrid img = none ↔
      ((rowsFg img).any (fun x => x) = false ∨ (colsFg img).any (fun x => x) = false) := by
  constructor
  · intro h
    simp only [gapGrid] at h
    split_ifs at h with h1 h2
    · exact h1
    · exact absurd h2 (by
        have ha := findGaps_length (rowGaps img) (rowStart img) (rowEnd img)
        have hb := findGaps_length (colGaps img) (colStart img) (colEnd img)
        omega)
  · intro h
    simp only [gapGrid, if_pos h]

theorem noFg_iff (img : Image) :
    ((rowsFg img).any (fun x => x) = false ∨ (colsFg img).any (fun x => x) = false) ↔
      ∀ i j, i < img.h → j < img.w → isFg img i j = false := by
  constructor
  · rintro (h | h) i j hi hj
    · by_contra hc
      have hc' : isFg img i j = true := by
        cases hfg : isFg img i j
        · exact absurd hfg hc
        · rfl
      have hany : (rowsFg img).any (fun x => x) = true := by
        rw [List.any_eq_true]
        refine ⟨rowHasFg img i, List.mem_map_of_mem _ (List.mem_range.mpr hi), ?_⟩
        show rowHasFg img i = true
        rw [rowHasFg, List.any_eq_true]
        exact ⟨j, List.mem_range.mpr hj, hc'⟩
      rw [h] at hany
      exact absurd hany (by simp)
    · by_contra hc
      have hc' : isFg img i j = true := by
        cases hfg : isFg img i j
        · exact absurd hfg hc
        · rfl
      have hany : (colsFg img).any (fun x => x) = true := by
        rw [List.any_eq_true]
        refine ⟨colHasFg img j, List.mem_map_of_mem _ (List.mem_range.mpr hj), ?_⟩
        show colHasFg img j = true
        rw [colHasFg, List.any_eq_true]
        exact ⟨i, List.mem_range.mpr hi, hc'⟩
      rw [h] at hany
      exact absurd hany (by simp)
  · intro hall
    left
    cases hany : (rowsFg img).any (fun x => x)
    · rfl
    · exfalso
      rw [List.any_eq_true] at hany
      obtain ⟨b, hb, hbtrue⟩ := hany
      rw [rowsFg, List.mem_map] at hb
      obtain ⟨i, hi, hbi⟩ := hb
      have hb' : rowHasFg img i = true := by rw [hbi]; exact hbtrue
      rw [rowHasFg, List.any_eq_true] at hb'
      obtain ⟨j, hj, hfg⟩ := hb'
      have hfg' : isFg img i j = true := hfg
      rw [hall i j (List.mem_range.mp hi) (List.mem_range.mp hj)] at hfg'
      exact absurd hfg' (by simp)

theorem detect_of_gap {img : Image} {g : Grid} (h : gapGrid img = some g) :
    detectGridSimple img = some g := by
  rw [detectGridSimple, h]

theorem detect_of_fallback {img : Image} (h : gapGrid img = none) :
    detectGridSimple img = fallbackGrid img := by
  rw [detectGridSimple, h]

/-! ## Concrete evaluation of the gap path on `img2` -/

theorem bgGray_img2 : bgGray img2 = 765 / 4 := by
  have hp : patchMean img2 0 2 0 2 = 765 / 4 := by
    norm_num [patchMean, img2, grayAt, List.range', qmean]
  have hb : bgGray img2 =
      medianL [patchMean img2 0 2 0 2, patchMean img2 0 2 0 2,
               patchMean img2 0 2 0 2, patchMean img2 0 2 0 2] := by
    norm_num [bgGray, img2]
  rw [hb, hp]
  exact medianL_const (by simp) (by simp)

theorem fgThreshold_img2 : fgThreshold img2 = 685 / 4 := by
  rw [fgThreshold, bgGray_img2]; norm_num

theorem isFg_img2 (i j : ℕ) : isFg img2 i j = (decide (i = 1) && decide (j = 1)) := by
  rw [isFg, fgThreshold_img2]
  by_cases h1 : i = 1 <;> by_cases h2 : j = 1 <;>
    simp [grayAt, img2, h1, h2] <;> norm_num

theorem rowsFg_img2 : rowsFg img2 = [false, true] := by
  have h0 : rowHasFg img2 0 = false := by
    rw [rowHasFg]; simp only [isFg_img2]; decide
  have h1 : rowHasFg img2 1 = true := by
    rw [rowHasFg]; simp only [isFg_img2]; decide
  rw [rowsFg, show img2.h = 2 from rfl, show List.range 2 = [0, 1] from rfl,
    List.map_cons, List.map_cons, List.map_nil, h0, h1]

theorem colsFg_img2 : colsFg img2 = [false, true] := by
  have h0 : colHasFg img2 0 = false := by
    rw [colHasFg]; simp only [isFg_img2]; decide
  have h1 : colHasFg img2 1 = true := by
    rw [colHasFg]; simp only [isFg_img2]; decide
  rw [colsFg, show img2.w = 2 from rfl, show List.range 2 = [0, 1] from rfl,
    List.map_cons, List.map_cons, List.map_nil, h0, h1]

theorem rowStart_img2 : rowStart img2 = 1 := by
  rw [rowStart, rowsFg_img2]; decide

theorem rowEnd_img2 : rowEnd img2 = 2 := by
  rw [rowEnd, rowsFg_img2]; decide

theorem colStart_img2 : colStart img2 = 1 := by
  rw [colStart, colsFg_img2]; decide

theorem colEnd_img2 : colEnd img2 = 2 := by
  rw [colEnd, colsFg_img2]; decide

theorem rowGaps_img2 : rowGaps img2 = [false] := by
  have hd : rowDensity img2 1 = 1 := by
    rw [rowDensity, colStart_img2, colEnd_img2]
    norm_num [boolMean, List.range', isFg_img2]
  rw [rowGaps, rowStart_img2, rowEnd_img2]
  norm_num [List.range', hd]

theorem colGaps_img2 : colGaps img2 = [false] := by
  have hd : colDensity img2 1 = 1 := by
    rw [colDensity, rowStart_img2, rowEnd_img2]
    norm_num [boolMean, List.range', isFg_img2]
  rw [colGaps, colStart_img2, colEnd_img2]
  norm_num [List.range', hd]

theorem gapGrid_img2 : gapGrid img2 = some (1, 1, [(1, 1, 1, 1)]) := by
  have hf : findGaps [false] 1 2 = [1, 2] := by decide
  have hc : gapCells [1, 2] [1, 2] = [(1, 1, 1, 1)] := by decide
  rw [gapGrid, rowsFg_img2, colsFg_img2, rowGaps_img2, colGaps_img2,
    rowStart_img2, rowEnd_img2, colStart_img2, colEnd_img2, hf]
  simp [hc]

/-- C10: `_find_gaps` always returns at least two splits (the bounding-box
start and end are appended unconditionally), so the fewer-than-2-splits
fallback branch of `_detect_grid_simple` is unreachable, and the gap-based
path diverts to `_fallback_grid` exactly when the image has no foreground
pixel; in particular when a foreground pixel exists the detector returns the
gap-based grid. -/
theorem claim10_find_gaps_total :
    (∀ (gaps : List Bool) (s e : ℕ), 2 ≤ (findGaps gaps s e).length) ∧
    (∀ img : Image,
      (gapGrid img = none ↔ ∀ i j, i < img.h → j < img.w → isFg img i j = false)) ∧
    (∀ img : Image, (∃ i j, i < img.h ∧ j < img.w ∧ isFg img i j = true) →
      detectGridSimple img = gapGrid img) := by
  refine ⟨findGaps_length, fun img => (gapGrid_none_iff img).trans (noFg_iff img), ?_⟩
  rintro img ⟨i, j, hi, hj, hfg⟩
  have hne : gapGrid img ≠ none := by
    intro hnone
    rw [gapGrid_none_iff, noFg_iff] at hnone
    rw [hnone i j hi hj] at hfg
    exact absurd hfg (by simp)
  cases hgap : gapGrid img with
  | none => exact absurd hgap hne
  | some g => exact detect_of_gap hgap

theorem claim10_witness : detectGridSimple img2 = gapGrid img2 :=
  claim10_find_gaps_total.2.2 img2
    ⟨1, 1, by decide, by decide, by rw [isFg_img2]; decide⟩

/-- C2 counterexample: on a 2x2 image whose single foreground pixel spans a
1x1 bounding box, the gap-based strategy returns a 1x1 grid, so a grid
produced by gap detection need not have at least 2 rows and 2 columns. -/
theorem claim2_counterexample :
    gapGrid img2 = some (1, 1, [(1, 1, 1, 1)]) ∧ ¬ 2 ≤ 1 :=
  ⟨gapGrid_img2, by decide⟩

/-- C2 amended: every grid produced by the gap-based detection strategy has
at least 1 row and at least 1 column (but not necessarily 2 of each). -/
theorem claim2_gap_dims :
    ∀ (img : Image) (r c : ℕ) (cells : List Rect),
      gapGrid img = some (r, c, cells) → 1 ≤ r ∧ 1 ≤ c := by
  intro img r c cells h
  obtain ⟨hr, hc, -⟩ := gapGrid_some h
  have ha := findGaps_length (rowGaps img) (rowStart img) (rowEnd img)
  have hb := findGaps_length (colGaps img) (colStart img) (colEnd img)
  omega

theorem claim2_witness : 1 ≤ 1 ∧ 1 ≤ 1 :=
  claim2_gap_dims img2 1 1 [(1, 1, 1, 1)] gapGrid_img2

/-! ## The fallback selection as a first-argmax pick -/

theorem maxScan_ge_init {α : Type} (f : α → ℚ) :
    ∀ (l : List α) (init : ℚ), init ≤ maxScan f init l
  | [], _ => le_refl _
  | x :: t, init =>
    le_trans (le_max_left init (f x)) (maxScan_ge_init f t (max init (f x)))

theorem maxScan_le {α : Type} (f : α → ℚ) :
    ∀ (l : List α) (init b : ℚ), init ≤ b → (∀ x ∈ l, f x ≤ b) → maxScan f init l ≤ b
  | [], _, _, hi, _ => hi
  | x :: t, init, b, hi, hall =>
    maxScan_le f t (max init (f x)) b (max_le hi (hall x (List.mem_cons_self x t)))
      fun z hz => hall z (List.mem_cons_of_mem x hz)

theorem maxScan_mem_le {α : Type} (f : α → ℚ) :
    ∀ (l : List α) (init : ℚ), ∀ x ∈ l, f x ≤ maxScan f init l
  | x :: t, init, z, hz => by
    rcases List.mem_cons.mp hz with rfl | hz'
    · exact le_trans (le_max_right init (f z)) (maxScan_ge_init f t _)
    · exact maxScan_mem_le f t (max init (f x)) z hz'

theorem maxScan_attained {α : Type} (f : α → ℚ) :
    ∀ (l : List α) (init : ℚ), init < maxScan f init l → ∃ x ∈ l, f x = maxScan f init l
  | [], _, h => absurd h (lt_irrefl _)
  | x :: t, init, h => by
    have heq : maxScan f init (x :: t) = maxScan f (max init (f x)) t := rfl
    by_cases hlt : max init (f x) < maxScan f (max init (f x)) t
    · obtain ⟨z, hz, hzeq⟩ := maxScan_attained f t (max init (f x)) hlt
      exact ⟨z, List.mem_cons_of_mem x hz, by rw [heq]; exact hzeq⟩
    · have hmax : maxScan f (max init (f x)) t = max init (f x) :=
        le_antisymm (not_lt.mp hlt) (maxScan_ge_init f t _)
      rw [heq, hmax] at h ⊢
      have hfx : max init (f x) = f x := by
        rcases max_cases init (f x) with ⟨hm, _⟩ | ⟨hm, _⟩
        · rw [hm] at h; exact absurd h (lt_irrefl _)
        · exact hm
      exact ⟨x, List.mem_cons_self x t, hfx.symm⟩

theorem pick_foldl {α β : Type} (f : α → ℚ) (g : α → β) :
    ∀ (l : List α) (b : Option β) (s : ℚ),
      l.foldl (fun st x => if st.2 < f x then (some (g x), f x) else st) (b, s) =
        if s < maxScan f s l then
          ((l.find? fun x => decide (f x = maxScan f s l)).map g, maxScan f s l)
        else (b, s)
  | [], b, s => by simp [maxScan]
  | x :: t, b, s => by
    have hms : maxScan f s (x :: t) = maxScan f (max s (f x)) t := rfl
    rw [List.foldl_cons]
    by_cases hx : s < f x
    · rw [show (if (b, s).2 < f x then ((some (g x) : Option β), f x) else (b, s)) =
          (some (g x), f x) from if_pos hx]
      rw [pick_foldl f g t (some (g x)) (f x), hms, max_eq_right (le_of_lt hx)]
      have hsM : s < maxScan f (f x) t :=
        lt_of_lt_of_le hx (maxScan_ge_init f t (f x))
      rw [if_pos hsM]
      by_cases hfM : f x < maxScan f (f x) t
      · rw [if_pos hfM, List.find?_cons_of_neg t (by simp; exact ne_of_lt hfM)]
      · rw [if_neg hfM]
        have hM : maxScan f (f x) t = f x :=
          le_antisymm (not_lt.mp hfM) (maxScan_ge_init f t _)
        rw [List.find?_cons_of_pos t (by simp [hM]), hM, Option.map_some']
    · rw [show (if (b, s).2 < f x then ((some (g x) : Option β), f x) else (b, s)) =
          (b, s) from if_neg hx]
      rw [pick_foldl f g t b s, hms, max_eq_left (not_lt.mp hx)]
      by_cases hsM : s < maxScan f s t
      · rw [if_pos hsM, if_pos hsM]
        have hxM : ¬ (fun z => decide (f z = maxScan f s t)) x = true := by
          simp only [decide_eq_true_eq]
          intro he
          rw [← he] at hsM
          exact absurd hsM (not_lt.mpr (not_lt.mp hx))
        rw [List.find?_cons_of_neg t hxM]
      · rw [if_neg hsM, if_neg hsM]

theorem fallbackStep_eq_pick {img : Image} {st : Option Grid × ℚ} {rc : ℕ × ℕ}
    (hok : candOk img rc = true) : fallbackStep img st rc = pickStep img st rc := by
  simp only [candOk, Bool.and_eq_true, decide_eq_true_eq] at hok
  obtain ⟨⟨h50, hch⟩, hcw⟩ := hok
  rw [fallbackStep, if_neg (by omega), if_neg (by omega)]
  rfl

theorem fallbackStep_skip {img : Image} {st : Option Grid × ℚ} {rc : ℕ × ℕ}
    (hok : candOk img rc = false) : fallbackStep img st rc = st := by
  simp only [candOk, Bool.and_eq_false_iff, decide_eq_false_iff_not, not_le] at hok
  rw [fallbackStep]
  rcases hok with (h | h) | h
  · rw [if_pos h]
  · by_cases h50 : 50 < rc.1 * rc.2
    · rw [if_pos h50]
    · rw [if_neg h50, if_pos (Or.inl h)]
  · by_cases h50 : 50 < rc.1 * rc.2
    · rw [if_pos h50]
    · rw [if_neg h50, if_pos (Or.inr h)]

theorem foldl_guard (img : Image) :
    ∀ (l : List (ℕ × ℕ)) (st : Option Grid × ℚ),
      l.foldl (fallbackStep img) st = (l.filter (candOk img)).foldl (pickStep img) st
  | [], _ => rfl
  | x :: t, st => by
    cases hok : candOk img x
    · rw [List.foldl_cons, fallbackStep_skip hok,
        List.filter_cons_of_neg (by simp [hok]), foldl_guard img t st]
    · rw [List.foldl_cons, fallbackStep_eq_pick hok,
        List.filter_cons_of_pos hok, List.foldl_cons, foldl_guard img t _]

theorem fallback_eq_spec (img : Image) : fallbackGrid img = fallbackSpec img := by
  rw [fallbackGrid, foldl_guard img candPairs (none, 0)]
  have hstep : pickStep img = fun (st : Option Grid × ℚ) x =>
      if st.2 < candScore img x
      then ((some (x.1, x.2, fallbackCells img.w img.h x.1 x.2) : Option Grid), candScore img x)
      else st := rfl
  rw [hstep, show candPairs.filter (candOk img) = specCands img from rfl,
    pick_foldl (candScore img) (fun rc => (rc.1, rc.2, fallbackCells img.w img.h rc.1 rc.2))
      (specCands img) none 0]
  rw [fallbackSpec]
  have hbest : bestCandScore img = maxScan (candScore img) 0 (specCands img) := rfl
  by_cases h0 : 0 < maxScan (candScore img) 0 (specCands img)
  · rw [if_pos h0, if_pos (hbest ▸ h0), hbest]
  · rw [if_neg h0, if_neg (hbest ▸ h0)]

theorem fallback_none_iff (img : Image) :
    fallbackGrid img = none ↔ ∀ rc ∈ specCands img, candScore img rc ≤ 0 := by
  rw [fallback_eq_spec, fallbackSpec]
  by_cases h0 : 0 < bestCandScore img
  · rw [if_pos h0]
    constructor
    · intro hmap
      exfalso
      obtain ⟨x, hx, hxeq⟩ := maxScan_attained (candScore img) (specCands img) 0 h0
      have hsome : ((specCands img).find? fun rc =>
          decide (candScore img rc = bestCandScore img)).isSome = true :=
        List.find?_isSome.mpr ⟨x, hx, by simp only [decide_eq_true_eq]; exact hxeq⟩
      cases hfind : (specCands img).find? fun rc =>
          decide (candScore img rc = bestCandScore img) with
      | none => rw [hfind] at hsome; simp at hsome
      | some rc0 => rw [hfind] at hmap; simp at hmap
    · intro hall
      exact absurd h0 (not_lt.mpr (maxScan_le (candScore img) (specCands img) 0 0 le_rfl hall))
  · rw [if_neg h0]
    constructor
    · intro _ rc hrc
      exact le_trans (maxScan_mem_le (candScore img) (specCands img) 0 rc hrc) (not_lt.mp h0)
    · intro _; rfl

theorem fallback_some_cells {img : Image} {r c : ℕ} {cells : List Rect}
    (h : fallbackGrid img = some (r, c, cells)) :
    cells = fallbackCells img.w img.h r c := by
  rw [fallback_eq_spec, fallbackSpec] at h
  split_ifs at h with h0
  · cases hfind : (specCands img).find? fun rc =>
        decide (candScore img rc = bestCandScore img) with
    | none => rw [hfind] at h; simp at h
    | some rc0 =>
      rw [hfind, Option.map_some', Option.some_inj] at h
      injection h with h1 h23
      injection h23 with h2 h3
      rw [← h3, h1, h2]

/-- C6: the brute-force fallback considers exactly the candidates with
`rows, cols ∈ [2,7]`, `rows*cols ≤ 50` and both cell dimensions at least 20
pixels (`specCands`); it returns the highest-scoring candidate with ties
broken in favor of the first one in ascending `(rows, cols)` iteration order
(`fallbackSpec`), and it fails exactly when no candidate scores strictly
above 0. -/
theorem claim6_fallback_selection :
    ∀ img : Image,
      fallbackGrid img = fallbackSpec img ∧
      (fallbackGrid img = none ↔ ∀ rc ∈ specCands img, candScore img rc ≤ 0) :=
  fun img => ⟨fallback_eq_spec img, fallback_none_iff img⟩

/-! ## Grid completeness -/

theorem debugEntries_length (cols : ℕ) (colors : List RGB) :
    (debugEntries cols colors).length = colors.length := by
  simp [debugEntries]

theorem detect_cells_length {img : Image} {r c : ℕ} {cells : List Rect}
    (h : detectGridSimple img = some (r, c, cells)) : cells.length = r * c := by
  cases hgap : gapGrid img with
  | some g =>
    have hd := detect_of_gap hgap
    have hg : g = (r, c, cells) := by
      rw [hd] at h
      exact Option.some_inj.mp h
    rw [hg] at hgap
    obtain ⟨hr, hc, hcells⟩ := gapGrid_some hgap
    rw [hcells, hr, hc]
    exact length_cross _ _ _
  | none =>
    rw [detect_of_fallback hgap] at h
    rw [fallback_some_cells h]
    exact length_cross _ _ _

/-- C1: whenever detection succeeds, the grid has exactly `rows*cols` cells,
the sampler produces exactly one color per cell, and in debug mode the
all-colors list also has exactly `rows*cols` entries. -/
theorem claim1_grid_completeness :
    ∀ (img : Image) (s : ℚ) (r c : ℕ) (cells : List Rect),
      detectGridSimple img = some (r, c, cells) →
      cells.length = r * c ∧ (cellColors img cells).length = r * c ∧
      ∃ res, analyze img s true = some res ∧
        ∃ l, res.debugColors = some l ∧ l.length = r * c := by
  intro img s r c cells h
  have hlen : cells.length = r * c := detect_cells_length h
  have hcc : (cellColors img cells).length = r * c := by
    rw [cellColors, List.length_map]; exact hlen
  refine ⟨hlen, hcc, ?_⟩
  have hana : analyze img s true = some ⟨r, c,
      (findDifferent (cellColors img cells) s).map
        (fun idx => entryOf c idx ((cellColors img cells).getD idx ⟨0, 0, 0⟩)),
      some (debugEntries c (cellColors img cells))⟩ := by
    simp only [analyze, h, if_true]
  exact ⟨_, hana, _, rfl, by rw [debugEntries_length]; exact hcc⟩

theorem claim1_witness :
    ([(1, 1, 1, 1)] : List Rect).length = 1 * 1 ∧
    (cellColors img2 [(1, 1, 1, 1)]).length = 1 * 1 ∧
    ∃ res, analyze img2 1 true = some res ∧
      ∃ l, res.debugColors = some l ∧ l.length = 1 * 1 :=
  claim1_grid_completeness img2 1 1 1 [(1, 1, 1, 1)] (detect_of_gap gapGrid_img2)

/-! ## Uniform images -/

theorem grayAt_uniform {img : Image} {c : RGB} (hu : Uniform img c) {i j : ℕ}
    (hi : i < img.h) (hj : j < img.w) : grayAt img i j = brightness c := by
  rw [grayAt, hu i j hi hj, brightness]

theorem patchMean_uniform {img : Image} {c : RGB} (hu : Uniform img c) {r0 r1 c0 c1 : ℕ}
    (hr1 : r1 ≤ img.h) (hc1 : c1 ≤ img.w) (hr : r0 < r1) (hc : c0 < c1) :
    patchMean img r0 r1 c0 c1 = brightness c := by
  rw [patchMean]
  apply qmean_const
  · intro x hx
    rw [List.mem_flatMap] at hx
    obtain ⟨i, hi, hx⟩ := hx
    rw [List.mem_map] at hx
    obtain ⟨j, hj, rfl⟩ := hx
    rw [List.mem_range'_1] at hi hj
    exact grayAt_uniform hu (by omega) (by omega)
  · exact List.ne_nil_of_mem (List.mem_flatMap.mpr
      ⟨r0, List.mem_range'_1.mpr ⟨le_refl _, by omega⟩,
       List.mem_map.mpr ⟨c0, List.mem_range'_1.mpr ⟨le_refl _, by omega⟩, rfl⟩⟩)

theorem bgGray_uniform {img : Image} {c : RGB} (hu : Uniform img c)
    (hh : 1 ≤ img.h) (hw : 1 ≤ img.w) : bgGray img = brightness c := by
  have h1 : patchMean img 0 (min img.h 5) 0 (min img.w 5) = brightness c :=
    patchMean_uniform hu (min_le_left _ _) (min_le_left _ _) (by omega) (by omega)
  have h2 : patchMean img 0 (min img.h 5) (img.w - 5) img.w = brightness c :=
    patchMean_uniform hu (min_le_left _ _) (le_refl _) (by omega) (by omega)
  have h3 : patchMean img (img.h - 5) img.h 0 (min img.w 5) = brightness c :=
    patchMean_uniform hu (le_refl _) (min_le_left _ _) (by omega) (by omega)
  have h4 : patchMean img (img.h - 5) img.h (img.w - 5) img.w = brightness c :=
    patchMean_uniform hu (le_refl _) (le_refl _) (by omega) (by omega)
  rw [bgGray, h1, h2, h3, h4]
  exact medianL_const (by simp) (by simp)

theorem isFg_uniform {img : Image} {c : RGB} (hu : Uniform img c)
    (hh : 1 ≤ img.h) (hw : 1 ≤ img.w) {i j : ℕ} (hi : i < img.h) (hj : j < img.w) :
    isFg img i j = false := by
  rw [isFg, fgThreshold, bgGray_uniform hu hh hw, grayAt_uniform hu hi hj]
  simp only [decide_eq_false_iff_not, not_lt]
  linarith

theorem gapGrid_uniform {img : Image} {c : RGB} (hu : Uniform img c)
    (hh : 1 ≤ img.h) (hw : 1 ≤ img.w) : gapGrid img = none := by
  rw [gapGrid_none_iff, noFg_iff]
  intro i j hi hj
  exact isFg_uniform hu hh hw hi hj

theorem scoreRegion_mem {img : Image} {rect : Rect} {p : RGB}
    (hp : p ∈ scoreRegion img rect) : ∃ i j, i < img.h ∧ j < img.w ∧ p = img.pix i j := by
  simp only [scoreRegion] at hp
  rw [List.mem_flatMap] at hp
  obtain ⟨i, hi, hp⟩ := hp
  rw [List.mem_map] at hp
  obtain ⟨j, hj, rfl⟩ := hp
  rw [List.mem_range'_1] at hi hj
  have hmi := min_le_left img.h (rect.2.1 + rect.2.2.2 - 3 * rect.2.2.2 / 20)
  have hmj := min_le_left img.w (rect.1 + rect.2.2.1 - 3 * rect.2.2.1 / 20)
  exact ⟨i, j, by omega, by omega, rfl⟩

theorem meanRGB_const {l : List RGB} {c : RGB} (hall : ∀ p ∈ l, p = c) (hne : l ≠ []) :
    meanRGB l = c := by
  have hmap : ∀ (f : RGB → ℚ), qmean (l.map f) = f c := by
    intro f
    apply qmean_const
    · intro x hx
      rw [List.mem_map] at hx
      obtain ⟨p, hp, rfl⟩ := hx
      rw [hall p hp]
    · simpa [List.map_eq_nil_iff] using hne
  rw [meanRGB, hmap, hmap, hmap]

theorem distR_self (a : RGB) : distR a a = 0 := by
  rw [distR, show dist2 a a = 0 from by rw [dist2]; ring]
  simp [Real.sqrt_zero]

theorem chStd_const {l : List ℚ} {q : ℚ} (hall : ∀ x ∈ l, x = q) : chStd l = 0 := by
  rcases eq_or_ne l [] with rfl | hne
  · simp [chStd, qmean, Real.sqrt_zero]
  · have hm : qmean l = q := qmean_const hall hne
    have h0 : qmean (l.map fun x => (x - qmean l) ^ 2) = 0 := by
      apply qmean_const
      · intro y hy
        rw [List.mem_map] at hy
        obtain ⟨x, hx, rfl⟩ := hy
        rw [hall x hx, hm]
        ring
      · simpa [List.map_eq_nil_iff] using hne
    rw [chStd, h0]
    simp [Real.sqrt_zero]

theorem avgStd_const {colors : List RGB} {c : RGB} (hall : ∀ p ∈ colors, p = c) :
    avgStd colors = 0 := by
  have hch : ∀ (f : RGB → ℚ), chStd (colors.map f) = 0 := by
    intro f
    apply chStd_const (q := f c)
    intro x hx
    rw [List.mem_map] at hx
    obtain ⟨p, hp, rfl⟩ := hx
    rw [hall p hp]
  rw [avgStd, hch, hch, hch]
  norm_num

theorem score_uniform_bright {img : Image} {c : RGB} {cells : List Rect} {rows cols : ℕ}
    (hu : Uniform img c) (hb : 200 < brightness c) (hpos : 0 < rows * cols) :
    scoreGrid img cells rows cols = 0 := by
  simp only [scoreGrid]
  by_cases hemp : (cells.any fun rect => (scoreRegion img rect).isEmpty) = true
  · rw [if_pos hemp]
  · rw [if_neg hemp]
    rw [Bool.not_eq_true, List.any_eq_false] at hemp
    cases hcells : cells with
    | nil =>
      subst hcells
      rw [if_neg (by simp), if_pos (by simp only [List.map_nil, List.length_nil]; omega)]
    | cons rect rest =>
      subst hcells
      have hne : scoreRegion img rect ≠ [] := by
        have := hemp rect (List.mem_cons_self rect rest)
        rw [Bool.not_eq_true, List.isEmpty_eq_false] at this
        exact this
      have hmean : meanRGB (scoreRegion img rect) = c :=
        meanRGB_const
          (fun p hp => by obtain ⟨i, j, hi, hj, rfl⟩ := scoreRegion_mem hp; exact hu i j hi hj)
          hne
      rw [if_pos ?hcond]
      case hcond =>
        rw [List.map_cons, List.any_cons, hmean]
        simp [hb]

theorem score_uniform_dark {img : Image} {c : RGB} {rows cols : ℕ} {cells : List Rect}
    (hu : Uniform img c) (hb : ¬ 200 < brightness c)
    (hlen : cells.length = rows * cols) (hpos : cells ≠ [])
    (hne : ∀ rect ∈ cells, (scoreRegion img rect).isEmpty = false) :
    scoreGrid img cells rows cols = 3 / 5 := by
  have hanyemp : (cells.any fun rect => (scoreRegion img rect).isEmpty) = false := by
    rw [List.any_eq_false]
    intro rect hrect
    rw [hne rect hrect]
    simp
  have hmap : (cells.map fun rect => meanRGB (scoreRegion img rect)) =
      List.replicate cells.length c := by
    have h1 : ∀ b ∈ cells.map fun rect => meanRGB (scoreRegion img rect), b = c := by
      intro b hbmem
      rw [List.mem_map] at hbmem
      obtain ⟨rect, hrect, rfl⟩ := hbmem
      exact meanRGB_const
        (fun p hp => by obtain ⟨i, j, hi, hj, rfl⟩ := scoreRegion_mem hp; exact hu i j hi hj)
        (by rw [← List.isEmpty_eq_false]; exact hne rect hrect)
    have h2 := List.eq_replicate_of_mem h1
    rwa [List.length_map] at h2
  have hn : cells.length ≠ 0 := fun h0 => hpos (List.length_eq_zero.mp h0)
  simp only [scoreGrid, hmap]
  rw [if_neg (by rw [hanyemp]; simp)]
  rw [if_neg ?hbright]
  case hbright =>
    intro hany
    rw [List.any_eq_true] at hany
    obtain ⟨x, hx, hxp⟩ := hany
    rw [(List.mem_replicate.mp hx).2] at hxp
    simp only [decide_eq_true_eq] at hxp
    exact hb hxp
  rw [if_neg (by rw [List.length_replicate, hlen]; simp)]
  have hmed : medianRGB (List.replicate cells.length c) = c := by
    have hch : ∀ f : RGB → ℚ, medianL ((List.replicate cells.length c).map f) = f c := by
      intro f
      rw [List.map_replicate]
      exact medianL_const (fun x hx => (List.mem_replicate.mp hx).2)
        (List.ne_nil_of_mem (List.mem_replicate.mpr ⟨hn, rfl⟩))
    rw [medianRGB, hch, hch, hch]
  rw [hmed]
  have hdist : (List.replicate cells.length c).map (fun cc => distR cc c) =
      List.replicate cells.length (0 : ℝ) := by
    rw [List.map_replicate, distR_self]
  rw [hdist]
  have hfilt : (List.replicate cells.length (0 : ℝ)).filter (fun d => decide (d < 80)) =
      List.replicate cells.length (0 : ℝ) := by
    rw [List.filter_replicate, if_pos (by norm_num)]
  rw [hfilt, List.length_replicate, List.length_replicate]
  have hsim : ((cells.length : ℚ)) / (cells.length : ℚ) = 1 :=
    div_self (by exact_mod_cast hn)
  rw [hsim]
  rw [if_neg (by norm_num)]
  rw [if_pos (by rw [avgStd_const fun p hp => (List.mem_replicate.mp hp).2]; norm_num)]
  norm_num

/-! ## C3: uniform images -/

/-- C3 amended: a uniform solid-color image whose mean channel brightness
exceeds 200 yields the no-grid-detected error. -/
theorem claim3_uniform_bright :
    ∀ (img : Image) (c : RGB) (s : ℚ) (debug : Bool),
      1 ≤ img.h → 1 ≤ img.w → Uniform img c → 200 < brightness c →
      analyze img s debug = none := by
  intro img c s debug hh hw hu hb
  have hgap : gapGrid img = none := gapGrid_uniform hu hh hw
  have hfb : fallbackGrid img = none := by
    rw [fallback_none_iff]
    intro rc hrc
    have hrc2 : 2 ≤ rc.1 ∧ 2 ≤ rc.2 := by
      rw [specCands, List.mem_filter] at hrc
      have hcp := hrc.1
      rw [candPairs, List.mem_flatMap] at hcp
      obtain ⟨a, ha, hbm⟩ := hcp
      rw [List.mem_map] at hbm
      obtain ⟨b, hbmem, rfl⟩ := hbm
      rw [List.mem_range'_1] at ha hbmem
      exact ⟨ha.1, hbmem.1⟩
    rw [candScore, score_uniform_bright hu hb (by nlinarith [hrc2.1, hrc2.2])]
  simp only [analyze, detectGridSimple, hgap, hfb]

theorem claim3_amended_witness :
    1 ≤ img1.h ∧ 1 ≤ img1.w ∧ Uniform img1 ⟨255, 255, 255⟩ ∧
    200 < brightness ⟨255, 255, 255⟩ ∧ analyze img1 1 false = none :=
  ⟨by decide, by decide, fun _ _ _ _ => rfl, by norm_num [brightness],
   claim3_uniform_bright img1 ⟨255, 255, 255⟩ 1 false (by decide) (by decide)
     (fun _ _ _ _ => rfl) (by norm_num [brightness])⟩

/-- C3 counterexample: a uniform black 40x40 image is solid-color with no
internal structure, yet `analyze` succeeds (the brute-force fallback accepts
the 2x2 partition with score 0.6), so a uniform image does not always yield
the no-grid-detected error. -/
theorem claim3_counterexample :
    (∀ i j, i < img40.h → j < img40.w → img40.pix i j = ⟨0, 0, 0⟩) ∧
    analyze img40 (3 / 2) false ≠ none := by
  have hu : Uniform img40 ⟨0, 0, 0⟩ := fun _ _ _ _ => rfl
  refine ⟨hu, ?_⟩
  have hgap : gapGrid img40 = none := gapGrid_uniform hu (by decide) (by decide)
  have hscore : candScore img40 (2, 2) = 3 / 5 := by
    rw [candScore]
    refine score_uniform_dark hu (by norm_num [brightness]) (length_cross _ _ _) ?_ ?_
    · decide
    · intro rect hrect
      have hall : ((fallbackCells img40.w img40.h 2 2).all
          fun rect => !(scoreRegion img40 rect).isEmpty) = true := by decide
      rw [List.all_eq_true] at hall
      have := hall rect hrect
      simpa using this
  have hspec : specCands img40 = [(2, 2)] := by decide
  have hbest : bestCandScore img40 = 3 / 5 := by
    rw [bestCandScore, hspec, maxScan]
    simp only [List.foldl_cons, List.foldl_nil, hscore]
    exact max_eq_right (by norm_num)
  have hfb : fallbackGrid img40 = some (2, 2, fallbackCells img40.w img40.h 2 2) := by
    rw [fallback_eq_spec, fallbackSpec, hbest, if_pos (by norm_num), hspec,
      List.find?_cons_of_pos _ (by simp [hscore, hbest]), Option.map_some']
  have hdet : detectGridSimple img40 = some (2, 2, fallbackCells img40.w img40.h 2 2) := by
    rw [detect_of_fallback hgap, hfb]
  have hana : analyze img40 (3 / 2) false = some ⟨2, 2,
      (findDifferent (cellColors img40 (fallbackCells img40.w img40.h 2 2)) (3 / 2)).map
        (fun idx => entryOf 2 idx
          ((cellColors img40 (fallbackCells img40.w img40.h 2 2)).getD idx ⟨0, 0, 0⟩)),
      none⟩ := by
    simp only [analyze, hdet, Bool.false_eq_true, if_false]
  rw [hana]
  simp

/-! ## C7: the sample window as an interval filter -/

theorem filter_ge_range (lo : ℕ) :
    ∀ n : ℕ, (List.range n).filter (fun i => decide (lo ≤ i)) = List.range' lo (n - lo)
  | 0 => by rw [Nat.zero_sub]; rfl
  | n + 1 => by
    rw [List.range_succ, List.filter_append, filter_ge_range lo n]
    by_cases h : lo ≤ n
    · have hf : List.filter (fun i => decide (lo ≤ i)) [n] = [n] := by simp [h]
      rw [hf, show n + 1 - lo = (n - lo) + 1 from by omega, List.range'_concat]
      congr 1
      simp
      omega
    · have hf : List.filter (fun i => decide (lo ≤ i)) [n] = [] := by simp [h]
      rw [hf, List.append_nil, show n + 1 - lo = 0 from by omega,
        show n - lo = 0 from by omega]

theorem filter_between_range (lo hi : ℕ) :
    ∀ n : ℕ, hi ≤ n →
      (List.range n).filter (fun i => decide (lo ≤ i) && decide (i < hi)) =
        List.range' lo (hi - lo)
  | 0, h => by
    have h0 : hi = 0 := by omega
    subst h0
    rw [Nat.zero_sub]
    rfl
  | n + 1, h => by
    rw [List.range_succ, List.filter_append]
    by_cases hn : hi ≤ n
    · have hf : List.filter (fun i => decide (lo ≤ i) && decide (i < hi)) [n] = [] := by
        simp
        omega
      rw [hf, List.append_nil, filter_between_range lo hi n hn]
    · have hhi : hi = n + 1 := by omega
      subst hhi
      have hcong : (List.range n).filter (fun i => decide (lo ≤ i) && decide (i < n + 1)) =
          (List.range n).filter (fun i => decide (lo ≤ i)) := by
        apply List.filter_congr
        intro x hx
        rw [List.mem_range] at hx
        simp [Nat.lt_succ_of_lt hx]
      rw [hcong, filter_ge_range lo n]
      by_cases hlon : lo ≤ n
      · have hf : List.filter (fun i => decide (lo ≤ i) && decide (i < n + 1)) [n] = [n] := by
          simp [hlon]
        rw [hf, show n + 1 - lo = (n - lo) + 1 from by omega, List.range'_concat]
        congr 1
        simp
        omega
      · have hf : List.filter (fun i => decide (lo ≤ i) && decide (i < n + 1)) [n] = [] := by
          simp [hlon]
        rw [hf, List.append_nil, show n + 1 - lo = 0 from by omega,
          show n - lo = 0 from by omega]

theorem sampleSpecPixels_eq (img : Image) (rect : Rect) :
    sampleSpecPixels img rect = samplePixels img rect := by
  have hY : sampleYhi img rect.2.1 rect.2.2.2 ≤ img.h := min_le_left _ _
  have hX : sampleXhi img rect.1 rect.2.2.1 ≤ img.w := min_le_left _ _
  rw [sampleSpecPixels, samplePixels, sampleRows, sampleCols,
    filter_between_range _ _ _ hY, filter_between_range _ _ _ hX]

/-- C7 amended: the sampler averages exactly the pixels whose row index lies
in `[sampleYlo, sampleYhi)` and whose column index lies in
`[sampleXlo, sampleXhi)` — a window centered on `(x + w/2, y + h/2)` whose
half-sizes are `(max 5 (w - 2*(w/5)))/2` and `(max 5 (h - 2*(h/5)))/2` with
floored margins and floored halves, clamped to the image — and returns the
neutral gray `(128,128,128)` whenever that window is empty. -/
theorem claim7_sampler :
    ∀ (img : Image) (rect : Rect), sampleCell img rect = sampleSpecCell img rect := by
  intro img rect
  rw [sampleCell, sampleSpecCell, sampleSpecPixels_eq]

/-- C7 counterexample: for the cell `(0,0,25,25)` on a 40x40 image the
sampled window spans 14 pixel columns, not `max(5, w - 2*mx) = 15` as the
claim states (the window is `[cx - sw//2, cx + sw//2)`, which has `2*(sw//2)`
columns, one fewer than `sw` when `sw` is odd). -/
theorem claim7_counterexample :
    (sampleCols img40 0 25).length = 14 ∧ max 5 (25 - 2 * (25 / 5)) = 15 ∧
    (sampleCols img40 0 25).length ≠ max 5 (25 - 2 * (25 / 5)) :=
  ⟨by decide, by decide, by decide⟩

/-! ## Classifier basics -/

theorem avgDistances_length (colors : List RGB) :
    (avgDistances colors).length = colors.length := by
  simp [avgDistances]

theorem distToMedian_length (colors : List RGB) :
    (distToMedian colors).length = colors.length := by
  simp [distToMedian]

theorem zOutliers_sub {colors : List RGB} {i : ℕ} (h : i ∈ zOutliers colors) :
    i < colors.length := by
  rw [zOutliers, List.mem_filter, List.mem_range] at h
  exact h.1

theorem madOutliers_sub {colors : List RGB} {i : ℕ} (h : i ∈ madOutliers colors) :
    i < colors.length := by
  rw [madOutliers, List.mem_filter, List.mem_range] at h
  exact h.1

theorem zOutliers_sorted (colors : List RGB) :
    List.Pairwise (· < ·) (zOutliers colors) :=
  (List.pairwise_lt_range _).filter _

theorem madOutliers_sorted (colors : List RGB) :
    List.Pairwise (· < ·) (madOutliers colors) :=
  (List.pairwise_lt_range _).filter _

theorem clustersOf_mem_fst {colors : List RGB} {c1 c2 : RGB} {i : ℕ}
    (h : i ∈ (clustersOf colors c1 c2).1) : i < colors.length := by
  rw [clustersOf, List.mem_filter, List.mem_range] at h
  exact h.1

theorem clustersOf_mem_snd {colors : List RGB} {c1 c2 : RGB} {i : ℕ}
    (h : i ∈ (clustersOf colors c1 c2).2) : i < colors.length := by
  rw [clustersOf, List.mem_filter, List.mem_range] at h
  exact h.1

theorem clustersOf_sorted_fst (colors : List RGB) (c1 c2 : RGB) :
    List.Pairwise (· < ·) (clustersOf colors c1 c2).1 :=
  (List.pairwise_lt_range _).filter _

theorem clustersOf_sorted_snd (colors : List RGB) (c1 c2 : RGB) :
    List.Pairwise (· < ·) (clustersOf colors c1 c2).2 :=
  (List.pairwise_lt_range _).filter _

theorem clustersOf_disjoint {colors : List RGB} {c1 c2 : RGB} {i : ℕ}
    (h2 : i ∈ (clustersOf colors c1 c2).2) : i ∉ (clustersOf colors c1 c2).1 := by
  intro h1
  rw [clustersOf, List.mem_filter] at h1 h2
  have ha := h1.2
  have hb := h2.2
  simp only [decide_eq_true_eq] at ha hb
  exact absurd ha (not_le.mpr hb)

theorem kmeansLoop_shape (colors : List RGB) :
    ∀ (fuel : ℕ) (c1 c2 : RGB),
      ∃ d1 d2, kmeansLoop colors fuel c1 c2 = clustersOf colors d1 d2
  | 0, c1, c2 => by
    rw [kmeansLoop]
    split_ifs <;> exact ⟨c1, c2, rfl⟩
  | fuel + 1, c1, c2 => by
    rw [kmeansLoop]
    split_ifs
    · exact ⟨c1, c2, rfl⟩
    · exact ⟨c1, c2, rfl⟩
    · exact kmeansLoop_shape colors fuel _ _

theorem kmeansClusters_shape (colors : List RGB) :
    ∃ d1 d2, kmeansClusters colors = clustersOf colors d1 d2 := by
  rw [kmeansClusters]
  exact kmeansLoop_shape colors 9 _ _

theorem argmaxIdx_lt {l : List ℝ} (hne : l ≠ []) : argmaxIdx l < l.length := by
  rw [argmaxIdx]
  refine foldl_invariant (fun st : ℕ × ℝ => st.1 < l.length)
    (fun st p => if st.2 < p.2 then p else st) l.enum (0, l.headD 0)
    (List.length_pos.mpr hne) ?_
  intro st x hx hst
  show (if st.2 < x.2 then x else st).1 < l.length
  by_cases h : st.2 < x.2
  · rw [if_pos h]
    have hx' : (x.1, x.2) ∈ l.enum := by simpa using hx
    exact (List.mem_enum hx').1
  · rw [if_neg h]
    exact hst

theorem lastResort_cases (colors : List RGB) (s : ℚ) :
    lastResort colors s = [] ∨
      lastResort colors s = [argmaxIdx (distToMedian colors)] := by
  rw [lastResort]
  split_ifs
  · right; rfl
  · left; rfl

theorem findDifferent_mem_lt {colors : List RGB} {s : ℚ} {i : ℕ}
    (h : i ∈ findDifferent colors s) : i < colors.length := by
  rw [findDifferent] at h
  split_ifs at h with h1 h2 h3 h4 h5 h6 h7
  · simp at h
  · simp at h
  · exact zOutliers_sub h
  · exact madOutliers_sub h
  · simp at h
  · obtain ⟨d1, d2, hk⟩ := kmeansClusters_shape colors
    rw [hk] at h
    exact clustersOf_mem_fst h
  · obtain ⟨d1, d2, hk⟩ := kmeansClusters_shape colors
    rw [hk] at h
    exact clustersOf_mem_snd h
  · rcases lastResort_cases colors s with hl | hl
    · rw [hl] at h; simp at h
    · rw [hl, List.mem_singleton] at h
      subst h
      have hne : distToMedian colors ≠ [] := by
        intro hz
        have hdl := distToMedian_length colors
        rw [hz] at hdl
        simp at hdl
        omega
      have := argmaxIdx_lt hne
      rwa [distToMedian_length colors] at this

theorem findDifferent_sorted (colors : List RGB) (s : ℚ) :
    List.Pairwise (· < ·) (findDifferent colors s) := by
  rw [findDifferent]
  split_ifs with h1 h2 h3 h4 h5 h6 h7
  · simp
  · simp
  · exact zOutliers_sorted colors
  · exact madOutliers_sorted colors
  · simp
  · obtain ⟨d1, d2, hk⟩ := kmeansClusters_shape colors
    rw [hk]
    exact clustersOf_sorted_fst colors d1 d2
  · obtain ⟨d1, d2, hk⟩ := kmeansClusters_shape colors
    rw [hk]
    exact clustersOf_sorted_snd colors d1 d2
  · rcases lastResort_cases colors s with hl | hl <;> rw [hl] <;> simp

theorem exists_not_z {colors : List RGB} (hlen : 2 ≤ colors.length)
    (hstd : (1 / 10 : ℝ) < stdAvgDist colors) :
    ∃ j, j < colors.length ∧ j ∉ zOutliers colors := by
  have hne : avgDistances colors ≠ [] := by
    intro h
    have hl := avgDistances_length colors
    rw [h] at hl
    simp at hl
    omega
  obtain ⟨x, hx, hxle⟩ := exists_le_rmean hne
  obtain ⟨k, hk, hkx⟩ := List.mem_iff_getElem.mp hx
  refine ⟨k, by have := avgDistances_length colors; omega, ?_⟩
  intro hmem
  rw [zOutliers, List.mem_filter] at hmem
  have hcond := hmem.2
  simp only [decide_eq_true_eq] at hcond
  rw [List.getD_eq_getElem _ _ hk, hkx] at hcond
  have hstd0 : (0 : ℝ) < stdAvgDist colors := lt_trans (by norm_num) hstd
  have hnum : x - meanAvgDist colors ≤ 0 := by rw [meanAvgDist]; linarith
  have hdiv : (x - meanAvgDist colors) / stdAvgDist colors ≤ 0 :=
    div_nonpos_of_nonpos_of_nonneg hnum (le_of_lt hstd0)
  linarith

theorem exists_not_mad {colors : List RGB} (hlen : 2 ≤ colors.length)
    (hmad : (1 / 10 : ℝ) < madDev colors) :
    ∃ j, j < colors.length ∧ j ∉ madOutliers colors := by
  have hne : distToMedian colors ≠ [] := by
    intro h
    have hl := distToMedian_length colors
    rw [h] at hl
    simp at hl
    omega
  obtain ⟨x, hx, hxle⟩ := exists_le_medianL hne
  obtain ⟨k, hk, hkx⟩ := List.mem_iff_getElem.mp hx
  refine ⟨k, by have := distToMedian_length colors; omega, ?_⟩
  intro hmem
  rw [madOutliers, List.mem_filter] at hmem
  have hcond := hmem.2
  simp only [decide_eq_true_eq] at hcond
  rw [List.getD_eq_getElem _ _ hk, hkx] at hcond
  have hmad0 : (0 : ℝ) < madDev colors := lt_trans (by norm_num) hmad
  have hnum : (6745 / 10000 : ℝ) * (x - medDistM colors) ≤ 0 := by
    have hx0 : x - medDistM colors ≤ 0 := by rw [medDistM]; linarith
    nlinarith
  have hdiv : (6745 / 10000 : ℝ) * (x - medDistM colors) / madDev colors ≤ 0 :=
    div_nonpos_of_nonpos_of_nonneg hnum (le_of_lt hmad0)
  linarith

/-- C4: with at least two cells and positive sensitivity, if the maximum
over cells of the mean Euclidean distance to every other cell is below
`10 / sensitivity`, the classifier returns the empty list at the isolation
gate. -/
theorem claim4_isolation_gate :
    ∀ (colors : List RGB) (s : ℚ), 2 ≤ colors.length → 0 < s →
      listMaxD (avgDistances colors) < ((minThreshold s : ℚ) : ℝ) →
      findDifferent colors s = [] := by
  intro colors s hlen _ hmax
  rw [findDifferent, if_neg (by omega), if_pos hmax]

/-- C9: the classifier never flags every cell — its output is always a
strict subset of the cell indices. -/
theorem claim9_never_all :
    ∀ (colors : List RGB) (s : ℚ), 2 ≤ colors.length →
      (∀ i ∈ findDifferent colors s, i < colors.length) ∧
      ∃ j, j < colors.length ∧ j ∉ findDifferent colors s := by
  intro colors s hlen
  refine ⟨fun i hi => findDifferent_mem_lt hi, ?_⟩
  rw [findDifferent]
  split_ifs with h1 h2 h3 h4 h5 h6 h7
  · exact ⟨0, by omega, by simp⟩
  · exact ⟨0, by omega, by simp⟩
  · exact exists_not_z hlen h3.1
  · exact exists_not_mad hlen h4.1
  · exact ⟨0, by omega, by simp⟩
  · obtain ⟨d1, d2, hk⟩ := kmeansClusters_shape colors
    obtain ⟨hne1, hne2, hlt⟩ := h6
    obtain ⟨j, hj⟩ := List.exists_mem_of_ne_nil _ hne2
    refine ⟨j, ?_, ?_⟩
    · rw [hk] at hj
      exact clustersOf_mem_snd hj
    · intro hmem
      rw [hk] at hmem hj
      exact clustersOf_disjoint hj hmem
  · obtain ⟨d1, d2, hk⟩ := kmeansClusters_shape colors
    obtain ⟨hne1, hne2, hlt⟩ := h7
    obtain ⟨j, hj⟩ := List.exists_mem_of_ne_nil _ hne1
    refine ⟨j, ?_, ?_⟩
    · rw [hk] at hj
      exact clustersOf_mem_fst hj
    · intro hmem
      rw [hk] at hmem hj
      exact clustersOf_disjoint hmem hj
  · rcases lastResort_cases colors s with hl | hl <;> rw [hl]
    · exact ⟨0, by omega, by simp⟩
    · by_cases hm : argmaxIdx (distToMedian colors) = 0
      · refine ⟨1, by omega, ?_⟩
        intro hmem
        rw [List.mem_singleton, hm] at hmem
        omega
      · exact ⟨0, by omega, fun hmem => hm (List.mem_singleton.mp hmem).symm⟩

theorem claim9_witness :
    (∀ i ∈ findDifferent colors4 1, i < colors4.length) ∧
    ∃ j, j < colors4.length ∧ j ∉ findDifferent colors4 1 :=
  claim9_never_all colors4 1 (by decide)

/-! ## Concrete classifier evaluations -/

theorem distR_eval (q : ℚ) (x : ℝ) {a b : RGB} (h : dist2 a b = q) (hx : 0 ≤ x)
    (hq : (q : ℝ) = x ^ 2) : distR a b = x := by
  rw [distR, h, hq, Real.sqrt_sq hx]

theorem avgDistances_colors4 : avgDistances colors4 = [3, 3] := by
  have h1 : distR ⟨0, 0, 0⟩ ⟨0, 0, 3⟩ = 3 :=
    distR_eval 9 3 (by norm_num [dist2]) (by norm_num) (by norm_num)
  have h2 : distR ⟨0, 0, 3⟩ ⟨0, 0, 0⟩ = 3 :=
    distR_eval 9 3 (by norm_num [dist2]) (by norm_num) (by norm_num)
  rw [avgDistances, show colors4.length = 2 from rfl,
    show List.range 2 = [0, 1] from rfl]
  simp only [List.map_cons, List.map_nil]
  norm_num [colors4, rmean, h1, h2]

theorem claim4_witness :
    2 ≤ colors4.length ∧ (0 : ℚ) < 1 ∧
    listMaxD (avgDistances colors4) < ((minThreshold 1 : ℚ) : ℝ) ∧
    findDifferent colors4 1 = [] := by
  have hmax : listMaxD (avgDistances colors4) < ((minThreshold 1 : ℚ) : ℝ) := by
    rw [avgDistances_colors4]
    simp [listMaxD, minThreshold]
    norm_num
  exact ⟨by decide, by norm_num, hmax,
    claim4_isolation_gate colors4 1 (by decide) (by norm_num) hmax⟩

/-! ## C8: row-major order of the report -/

theorem entryLt_of_lt {c : ℕ} (hc : 0 < c) {i j : ℕ} (hij : i < j) (x y : RGB) :
    entryLt (entryOf c i x) (entryOf c j y) := by
  have hdivle : i / c ≤ j / c := Nat.div_le_div_right (le_of_lt hij)
  rcases lt_or_eq_of_le hdivle with h | h
  · left
    simp only [entryOf]
    omega
  · right
    refine ⟨by simp only [entryOf]; omega, ?_⟩
    simp only [entryOf]
    have hi := Nat.div_add_mod i c
    have hj := Nat.div_add_mod j c
    rw [h] at hi
    omega

/-- C8: in every successful analysis the outlier entries are in strict
row-major order with 1-based rows and columns inside the grid, no cell is
reported twice, and the debug all-colors list is in row-major order too. -/
theorem claim8_row_major :
    ∀ (img : Image) (s : ℚ) (debug : Bool) (res : AnalysisResult),
      analyze img s debug = some res →
      List.Pairwise entryLt res.results ∧
      (∀ e ∈ res.results, 1 ≤ e.row ∧ e.row ≤ res.rows ∧ 1 ≤ e.col ∧ e.col ≤ res.cols) ∧
      List.Pairwise (fun a b => ¬ (a.row = b.row ∧ a.col = b.col)) res.results ∧
      (∀ l, res.debugColors = some l → List.Pairwise entryLt l) := by
  intro img s debug res hres
  cases hdet : detectGridSimple img with
  | none =>
    simp only [analyze, hdet] at hres
    exact absurd hres (by simp)
  | some g =>
    obtain ⟨r, c, cells⟩ := g
    simp only [analyze, hdet] at hres
    rw [Option.some_inj] at hres
    subst hres
    have hn : (cellColors img cells).length = r * c := by
      rw [cellColors, List.length_map]
      exact detect_cells_length hdet
    by_cases hc0 : c = 0
    · have hcl : (cellColors img cells).length = 0 := by rw [hn, hc0, mul_zero]
      have hfd : findDifferent (cellColors img cells) s = [] := by
        rw [findDifferent, if_pos (by omega)]
      refine ⟨by simp [hfd], ?_, by simp [hfd], ?_⟩
      · intro e he
        rw [hfd] at he
        simp at he
      · intro l hl
        cases debug with
        | false => simp at hl
        | true =>
          simp only [if_true, Option.some_inj] at hl
          rw [← hl, debugEntries]
          rw [List.length_eq_zero.mp hcl]
          simp
    · have hcpos : 0 < c := Nat.pos_of_ne_zero hc0
      have hpair : List.Pairwise entryLt
          ((findDifferent (cellColors img cells) s).map fun idx =>
            entryOf c idx ((cellColors img cells).getD idx ⟨0, 0, 0⟩)) :=
        List.Pairwise.map _ (fun a b hab => entryLt_of_lt hcpos hab _ _)
          (findDifferent_sorted (cellColors img cells) s)
      refine ⟨hpair, ?_, ?_, ?_⟩
      · intro e he
        rw [List.mem_map] at he
        obtain ⟨idx, hidx, rfl⟩ := he
        have hlt : idx < r * c := by rw [← hn]; exact findDifferent_mem_lt hidx
        have hrow : idx / c < r := (Nat.div_lt_iff_lt_mul hcpos).mpr hlt
        have hmod : idx % c < c := Nat.mod_lt idx hcpos
        exact ⟨by simp [entryOf], by simp [entryOf]; omega,
          by simp [entryOf], by simp [entryOf]; omega⟩
      · refine hpair.imp ?_
        intro a b hab
        rintro ⟨hr', hc'⟩
        rcases hab with h | ⟨-, h⟩
        · omega
        · omega
      · intro l hl
        cases debug with
        | false => simp at hl
        | true =>
          simp only [if_true, Option.some_inj] at hl
          rw [← hl, debugEntries]
          exact List.Pairwise.map _ (fun a b hab => entryLt_of_lt hcpos hab _ _)
            (List.pairwise_lt_range _)

theorem samplePixels_img2 : samplePixels img2 (1, 1, 1, 1) =
    [⟨255, 255, 255⟩, ⟨255, 255, 255⟩, ⟨255, 255, 255⟩, ⟨0, 0, 0⟩] := by
  simp [samplePixels, sampleRows, sampleCols, sampleXlo, sampleXhi, sampleYlo, sampleYhi,
    img2, List.range']

theorem cellColors_img2 : cellColors img2 [(1, 1, 1, 1)] = [⟨765 / 4, 765 / 4, 765 / 4⟩] := by
  rw [cellColors, List.map_cons, List.map_nil, sampleCell, samplePixels_img2]
  norm_num [meanRGB, qmean]

theorem analyze_img2 : analyze img2 1 true =
    some ⟨1, 1, [], some [⟨1, 1, (191, 191, 191)⟩]⟩ := by
  have hdet : detectGridSimple img2 = some (1, 1, [(1, 1, 1, 1)]) :=
    detect_of_gap gapGrid_img2
  have hfd : findDifferent (cellColors img2 [(1, 1, 1, 1)]) 1 = [] := by
    rw [cellColors_img2, findDifferent, if_pos (by simp)]
  have hfl : truncQ (765 / 4 : ℚ) = 191 := by
    rw [truncQ, if_neg (by norm_num)]
    exact Int.floor_eq_iff.mpr (by norm_num)
  simp only [analyze, hdet, if_true, hfd, List.map_nil, Option.some_inj]
  rw [cellColors_img2, debugEntries]
  simp [List.range_succ, entryOf, hfl]

theorem claim8_witness :
    List.Pairwise entryLt (AnalysisResult.mk 1 1 [] (some [⟨1, 1, (191, 191, 191)⟩])).results ∧
    (∀ e ∈ (AnalysisResult.mk 1 1 [] (some [⟨1, 1, (191, 191, 191)⟩])).results,
      1 ≤ e.row ∧ e.row ≤ (AnalysisResult.mk 1 1 [] (some [⟨1, 1, (191, 191, 191)⟩])).rows ∧
      1 ≤ e.col ∧ e.col ≤ (AnalysisResult.mk 1 1 [] (some [⟨1, 1, (191, 191, 191)⟩])).cols) ∧
    List.Pairwise (fun a b => ¬ (a.row = b.row ∧ a.col = b.col))
      (AnalysisResult.mk 1 1 [] (some [⟨1, 1, (191, 191, 191)⟩])).results ∧
    (∀ l, (AnalysisResult.mk 1 1 [] (some [⟨1, 1, (191, 191, 191)⟩])).debugColors = some l →
      List.Pairwise entryLt l) :=
  claim8_row_major img2 1 true ⟨1, 1, [], some [⟨1, 1, (191, 191, 191)⟩]⟩ analyze_img2

/-! ## C5: the two-cluster fallback -/

/-- C5: once the classifier reaches the two-cluster fallback (no earlier
strategy fired) and both final clusters are non-empty, the strictly smaller
cluster is returned; with equal cluster sizes neither is returned and the
last resort yields the index farthest from the median color exactly when
that distance exceeds `10 / sensitivity`, else the empty set. -/
theorem claim5_cluster_fallback :
    ∀ (colors : List RGB) (s : ℚ),
      2 ≤ colors.length →
      ¬ listMaxD (avgDistances colors) < ((minThreshold s : ℚ) : ℝ) →
      ¬ ((1 / 10 : ℝ) < stdAvgDist colors ∧ zOutliers colors ≠ []) →
      ¬ ((1 / 10 : ℝ) < madDev colors ∧ madOutliers colors ≠ []) →
      ¬ (maxPairState colors).1 < ((minThreshold s : ℚ) : ℝ) →
      (kmeansClusters colors).1 ≠ [] →
      (kmeansClusters colors).2 ≠ [] →
      findDifferent colors s =
        (if (kmeansClusters colors).1.length < (kmeansClusters colors).2.length then
          (kmeansClusters colors).1
        else if (kmeansClusters colors).2.length < (kmeansClusters colors).1.length then
          (kmeansClusters colors).2
        else if ((minThreshold s : ℚ) : ℝ) <
            (distToMedian colors).getD (argmaxIdx (distToMedian colors)) 0 then
          [argmaxIdx (distToMedian colors)]
        else []) := by
  intro colors s hlen h2 h3 h4 h5 hc1 hc2
  rw [findDifferent, if_neg (by omega), if_neg h2, if_neg h3, if_neg h4, if_neg h5]
  by_cases hlt : (kmeansClusters colors).1.length < (kmeansClusters colors).2.length
  · rw [if_pos ⟨hc1, hc2, hlt⟩, if_pos hlt]
  · rw [if_neg (fun hcon => hlt hcon.2.2), if_neg hlt]
    by_cases hlt2 : (kmeansClusters colors).2.length < (kmeansClusters colors).1.length
    · rw [if_pos ⟨hc1, hc2, hlt2⟩, if_pos hlt2]
    · rw [if_neg (fun hcon => hlt2 hcon.2.2), if_neg hlt2, lastResort]

theorem avgDistances_colors5 : avgDistances colors5 = [30, 30] := by
  have h1 : distR ⟨0, 0, 0⟩ ⟨0, 0, 30⟩ = 30 :=
    distR_eval 900 30 (by norm_num [dist2]) (by norm_num) (by norm_num)
  have h2 : distR ⟨0, 0, 30⟩ ⟨0, 0, 0⟩ = 30 :=
    distR_eval 900 30 (by norm_num [dist2]) (by norm_num) (by norm_num)
  rw [avgDistances, show colors5.length = 2 from rfl,
    show List.range 2 = [0, 1] from rfl]
  simp only [List.map_cons, List.map_nil]
  norm_num [colors5, rmean, h1, h2]

theorem stdAvgDist_colors5 : stdAvgDist colors5 = 0 := by
  have h30 : rmean [(30 : ℝ), 30] = 30 := by norm_num [rmean]
  rw [stdAvgDist, meanAvgDist, avgDistances_colors5, h30]
  norm_num [rmean, Real.sqrt_zero]

theorem medianRGB_colors5 : medianRGB colors5 = ⟨0, 0, 15⟩ := by
  rw [medianRGB]
  norm_num [colors5, medianL, List.insertionSort, List.orderedInsert, List.getD]

theorem distToMedian_colors5 : distToMedian colors5 = [15, 15] := by
  have h1 : distR ⟨0, 0, 0⟩ ⟨0, 0, 15⟩ = 15 :=
    distR_eval 225 15 (by norm_num [dist2]) (by norm_num) (by norm_num)
  have h2 : distR ⟨0, 0, 30⟩ ⟨0, 0, 15⟩ = 15 :=
    distR_eval 225 15 (by norm_num [dist2]) (by norm_num) (by norm_num)
  rw [distToMedian, medianRGB_colors5]
  simp [colors5, h1, h2]

theorem medDistM_colors5 : medDistM colors5 = 15 := by
  rw [medDistM, distToMedian_colors5]
  norm_num [medianL, List.insertionSort, List.orderedInsert, List.getD]

theorem madDev_colors5 : madDev colors5 = 0 := by
  rw [madDev, distToMedian_colors5, medDistM_colors5]
  norm_num [medianL, List.insertionSort, List.orderedInsert, List.getD]

theorem maxPairState_colors5 : maxPairState colors5 = (30, 0, 1) := by
  have h1 : distR (colors5.getD 0 ⟨0, 0, 0⟩) (colors5.getD 1 ⟨0, 0, 0⟩) = 30 :=
    distR_eval 900 30 (by norm_num [dist2, colors5, List.getD]) (by norm_num) (by norm_num)
  rw [maxPairState, show colors5.length = 2 from rfl,
    show allPairs 2 = [(0, 1)] from by decide]
  simp only [List.foldl_cons, List.foldl_nil, h1]
  norm_num

theorem clustersOf_colors5 : clustersOf colors5 ⟨0, 0, 0⟩ ⟨0, 0, 30⟩ = ([0], [1]) := by
  have e00 : distR (colors5.getD 0 ⟨0, 0, 0⟩) ⟨0, 0, 0⟩ = 0 := by
    rw [show colors5.getD 0 ⟨0, 0, 0⟩ = ⟨0, 0, 0⟩ from rfl]
    exact distR_self _
  have e01 : distR (colors5.getD 0 ⟨0, 0, 0⟩) ⟨0, 0, 30⟩ = 30 :=
    distR_eval 900 30 (by norm_num [dist2, colors5, List.getD]) (by norm_num) (by norm_num)
  have e10 : distR (colors5.getD 1 ⟨0, 0, 0⟩) ⟨0, 0, 0⟩ = 30 :=
    distR_eval 900 30 (by norm_num [dist2, colors5, List.getD]) (by norm_num) (by norm_num)
  have e11 : distR (colors5.getD 1 ⟨0, 0, 0⟩) ⟨0, 0, 30⟩ = 0 := by
    rw [show colors5.getD 1 ⟨0, 0, 0⟩ = ⟨0, 0, 30⟩ from rfl]
    exact distR_self _
  rw [clustersOf, show colors5.length = 2 from rfl,
    show List.range 2 = [0, 1] from rfl]
  simp only [List.filter, e00, e01, e10, e11]
  norm_num

theorem kmeansClusters_colors5 : kmeansClusters colors5 = ([0], [1]) := by
  rw [kmeansClusters, maxPairState_colors5,
    show colors5.getD ((30 : ℝ), 0, 1).2.1 ⟨0, 0, 0⟩ = ⟨0, 0, 0⟩ from rfl,
    show colors5.getD (((30 : ℝ), 0, 1) : ℝ × ℕ × ℕ).2.2 ⟨0, 0, 0⟩ = ⟨0, 0, 30⟩ from rfl,
    kmeansLoop, clustersOf_colors5]
  rw [if_neg (by simp)]
  rw [if_pos ?hclose]
  case hclose =>
    norm_num [meanRGB, qmean, colors5, allcloseRGB, allclose1, List.getD]

theorem claim5_witness :
    findDifferent colors5 1 =
      (if (kmeansClusters colors5).1.length < (kmeansClusters colors5).2.length then
        (kmeansClusters colors5).1
      else if (kmeansClusters colors5).2.length < (kmeansClusters colors5).1.length then
        (kmeansClusters colors5).2
      else if ((minThreshold 1 : ℚ) : ℝ) <
          (distToMedian colors5).getD (argmaxIdx (distToMedian colors5)) 0 then
        [argmaxIdx (distToMedian colors5)]
      else []) :=
  claim5_cluster_fallback colors5 1 (by decide)
    (by rw [avgDistances_colors5]; simp [listMaxD, minThreshold]; norm_num)
    (by rintro ⟨h, -⟩; rw [stdAvgDist_colors5] at h; norm_num at h)
    (by rintro ⟨h, -⟩; rw [madDev_colors5] at h; norm_num at h)
    (by rw [maxPairState_colors5]; norm_num [minThreshold])
    (by rw [kmeansClusters_colors5]; simp)
    (by rw [kmeansClusters_colors5]; simp)
